import Mathlib

/-!
# Verification of the 84VID decoder/player (`src/decoder/src/main.c`)

This file gives a shallow embedding, in Lean, of the decoding core of the
84VID video player and proves properties of it.

The embedding follows the C source:

* the video stream is a `List Nat` of byte values; `video_bin[i]` becomes
  `byteAt`/`byteAtI` (an out-of-range read, undefined behavior in C, is
  modelled as reading `0`);
* the global header variables become explicit parameters (`c` is
  `video_scale_factor`; `video_fps` only feeds the wall-clock budget,
  which is modelled by oracles, see below);
* `queued_rectangles` (32 `vid84rect_t` slots of C `int`s) becomes a
  `List Vid84Rect` of length 32, with `Int` fields;
* the wall clock (`clock()` / `CLOCKS_PER_SEC`) is external
  nondeterminism.  Each run of `process_next_frame` performs one
  time-budget check per loop iteration and exits at the first check that
  reports the budget exhausted; the clock is therefore modelled by the
  index `N` of the first expired check.  In `begin_decode` the per-frame
  choice "was there off-time left, and if so when does the prefetch pass
  expire" is an oracle `budget : Nat → Option Nat` indexed by the frame
  cycle number (`none` models `off_time <= 0`);
* drawing (`gfx_FillRectangle` inside the decode loops) is modelled as a
  trace of events.  The per-frame canvas clear (lines 250-252) is the
  `Ev.frameStart` event; the two border fills before the loop (lines
  240-241) and the final-frame `usleep` are not decode-relevant and
  produce no event.  After every prefetch pass the ghost event
  `Ev.prefetchEnd p` records the `rect_data_index` the pass was
  interrupted at (observable interaction with the clock oracle).
-/

namespace Vid84

/-! ## Data model -/

/-- C struct `vid84rect_t` (the decoder-side struct of C `int`s, lines 97-102). -/
structure Vid84Rect where
  x : Int
  y : Int
  x2 : Int
  y2 : Int
deriving Repr, DecidableEq

/-- A single `gfx_FillRectangle(x, y, w, h)` call issued for video data. -/
structure FillOp where
  x : Int
  y : Int
  w : Int
  h : Int
deriving Repr, DecidableEq

/-- Observable events of a playback run. -/
inductive Ev where
  /-- the per-frame canvas clear, top of each `begin_decode` cycle -/
  | frameStart : Ev
  /-- a fill issued by `process_rectangle_queue` (prefetched slot) -/
  | flushFill : FillOp → Ev
  /-- a fill issued by the live decoder inside `begin_decode` -/
  | liveFill : FillOp → Ev
  /-- ghost marker: a prefetch pass ended with this `rect_data_index` -/
  | prefetchEnd : Nat → Ev
deriving Repr, DecidableEq

/-- A raw 4-byte rectangle record of the stream (each coordinate one byte). -/
structure RawRect where
  x : Nat
  y : Nat
  x2 : Nat
  y2 : Nat
deriving Repr, DecidableEq

/-- A rectangle byte is anything except the two markers `0xFE`/`0xFF`. -/
def GoodRect (r : RawRect) : Prop :=
  r.x < 254 ∧ r.y < 254 ∧ r.x2 < 254 ∧ r.y2 < 254

instance : DecidablePred GoodRect := fun r => by
  unfold GoodRect; infer_instance

/-- The four stream bytes of a rectangle record, in stream order. -/
def rectBytes (r : RawRect) : List Nat := [r.x, r.y, r.x2, r.y2]

/-- Component `m` of a record as the stream stores it (`0→x,1→y,2→x2,3→y2`). -/
def rectComp (r : RawRect) (m : Nat) : Nat :=
  match m with
  | 0 => r.x
  | 1 => r.y
  | 2 => r.x2
  | _ => r.y2

/-- The byte sequence of one frame: its records back to back. -/
def frameBytes (f : List RawRect) : List Nat := f.flatMap rectBytes

/-- The stream body from some frame on: each frame's bytes, frames separated
by `0xFF`, the last followed by the end-of-stream marker `0xFE`. -/
def bodyBytes : List (List RawRect) → List Nat
  | [] => [254]
  | [f] => frameBytes f ++ [254]
  | f :: g :: fs => frameBytes f ++ 255 :: bodyBytes (g :: fs)

/-- Read `video_bin[i]` for a `Nat` index (out of range reads `0`). -/
def byteAt (s : List Nat) (i : Nat) : Nat := s.getD i 0

/-- Read `video_bin[i]` where the index is a C `int`. -/
def byteAtI (s : List Nat) (i : Int) : Nat := s.getD i.toNat 0

/-! ## `retrieve_data_from_video` (lines 67-95): header validation -/

/-- Function `retrieve_data_from_video`: the five checks of lines 70-91, in source
order, each early-returning `false`.  Magic bytes are the ASCII codes of
`8`, `4`, `V`, `I`, `D`. -/
def retrieve_data_from_video (s : List Nat) : Bool :=
  if ¬(byteAt s 0 = 56 ∧ byteAt s 1 = 52 ∧ byteAt s 2 = 86 ∧
       byteAt s 3 = 73 ∧ byteAt s 4 = 68) then false
  else if byteAt s 5 > 63 ∨ byteAt s 5 = 0 then false
  else if byteAt s 6 ≠ 1 then false
  else if byteAt s 7 > 6 ∨ byteAt s 7 = 0 then false
  else if byteAt s (s.length - 1) ≠ 254 then false
  else true

/-- The five distinguishable ways validation can fail (named as in the
specification §4.1). -/
inductive HeaderFail where
  | invalidMagic : HeaderFail
  | invalidFrameRate : HeaderFail
  | unsupportedVersion : HeaderFail
  | invalidScale : HeaderFail
  | missingTerminator : HeaderFail
deriving Repr, DecidableEq

/-- The first failing check of `retrieve_data_from_video`, in the source's
check order, or `none` when the header validates.  This is the detailed
check result the specification asks to be distinguishable internally; the
C function itself collapses it to a `bool`. -/
def headerFailKind (s : List Nat) : Option HeaderFail :=
  if ¬(byteAt s 0 = 56 ∧ byteAt s 1 = 52 ∧ byteAt s 2 = 86 ∧
       byteAt s 3 = 73 ∧ byteAt s 4 = 68) then some .invalidMagic
  else if byteAt s 5 > 63 ∨ byteAt s 5 = 0 then some .invalidFrameRate
  else if byteAt s 6 ≠ 1 then some .unsupportedVersion
  else if byteAt s 7 > 6 ∨ byteAt s 7 = 0 then some .invalidScale
  else if byteAt s (s.length - 1) ≠ 254 then some .missingTerminator
  else none

/-! ## The rectangle queue -/

/-- Constant `RECTANGLE_QUEUE_COUNT` (line 104). -/
def RECTANGLE_QUEUE_COUNT : Nat := 32

/-- The sentinel contents written by `init_render_queue` for one slot. -/
def emptyRect : Vid84Rect := ⟨-1, -1, -1, -1⟩

/-- Function `init_render_queue` (lines 109-118): every slot set to all `-1`. -/
def init_render_queue : List Vid84Rect :=
  List.replicate RECTANGLE_QUEUE_COUNT emptyRect

/-- Store value `v` into component `comp` of a rectangle: the `switch` of
lines 143-148 / 275-280 (`default: break` stores nothing). -/
def storeComp (r : Vid84Rect) (comp : Nat) (v : Int) : Vid84Rect :=
  match comp with
  | 0 => { r with x := v }
  | 1 => { r with y := v }
  | 2 => { r with x2 := v }
  | 3 => { r with y2 := v }
  | _ => r

/-- Assignment `queued_rectangles[i].<comp> = v`: the queue-side store of the same
`switch` (lines 143-148). -/
def storeComponent (q : List Vid84Rect) (i : Nat) (comp : Nat) (v : Int) : List Vid84Rect :=
  q.set i (storeComp (q.getD i emptyRect) comp v)

/-! ## `process_next_frame` (lines 120-185): the prefetch pass -/

/-- The mutable state of one `process_next_frame` invocation: the shared
cursor `*last_data_index` and queue, plus the local variables
`rect_data_index`, `rect_queue_index`, `queue_full`, `end_of_frame`. -/
structure PrefetchSt where
  last_data_index : Int
  queue : List Vid84Rect
  rect_data_index : Nat
  rect_queue_index : Nat
  queue_full : Bool
  end_of_frame : Bool
deriving Repr, DecidableEq

/-- The state at entry of `process_next_frame` (locals initialised as in
lines 127-131). -/
def freshPass (idx : Int) (q : List Vid84Rect) : PrefetchSt :=
  { last_data_index := idx, queue := q, rect_data_index := 0,
    rect_queue_index := 0, queue_full := false, end_of_frame := false }

/-- One iteration of the `while(time_to_process)` body up to (not
including) the time check: lines 135-167 of `process_next_frame`.  When
`queue_full` or `end_of_frame` is set the body does nothing. -/
def prefetchStep (c : Nat) (stream : List Nat) (s : PrefetchSt) : PrefetchSt :=
  if s.queue_full = false ∧ s.end_of_frame = false then
    let data := byteAtI stream s.last_data_index
    if data ≠ 254 ∧ data ≠ 255 then
      let q := storeComponent s.queue s.rect_queue_index s.rect_data_index
                 ((data : Int) * (c : Int))
      let rdi := s.rect_data_index + 1
      if rdi ≥ 4 then
        let rqi := s.rect_queue_index + 1
        { s with queue := q, rect_data_index := 0, rect_queue_index := rqi,
                 queue_full := decide (rqi ≥ RECTANGLE_QUEUE_COUNT),
                 last_data_index := s.last_data_index + 1 }
      else
        { s with queue := q, rect_data_index := rdi,
                 last_data_index := s.last_data_index + 1 }
    else
      { s with end_of_frame := true }
  else s

/-- The clean-up on budget exhaustion (lines 175-179): unless exactly
three components of a rectangle were consumed, rewind the cursor by
`rect_data_index` bytes. -/
def prefetchFinalize (s : PrefetchSt) : PrefetchSt :=
  if s.rect_data_index ≠ 3 then
    { s with last_data_index := s.last_data_index - (s.rect_data_index : Int) }
  else s

/-- The full `while(time_to_process)` loop.  The clock oracle is the
index `N` of the first loop iteration whose time check reports the budget
exhausted (the loop's only exit).  Returns the exit state (before the
clean-up of lines 175-179) and the number of body iterations executed. -/
def prefetchRun (c : Nat) (stream : List Nat) : Nat → PrefetchSt → PrefetchSt × Nat
  | 0, s => (prefetchStep c stream s, 1)
  | n + 1, s =>
    let r := prefetchRun c stream n (prefetchStep c stream s)
    (r.1, r.2 + 1)

/-- Function `process_next_frame`, as a function of the expiry oracle `N`, the
incoming cursor and the incoming queue. -/
def process_next_frame (c : Nat) (stream : List Nat) (N : Nat)
    (idx : Int) (q : List Vid84Rect) : PrefetchSt :=
  prefetchFinalize (prefetchRun c stream N (freshPass idx q)).1

/-- Function `prerender_first_frame` (lines 187-196): a prefetch pass starting at
stream offset 9 (its 500 ms budget is the oracle `N`). -/
def prerender_first_frame (c : Nat) (stream : List Nat) (N : Nat) : PrefetchSt :=
  process_next_frame c stream N 9 init_render_queue

/-! ## Drawing -/

/-- The draw computation of `process_rectangle_queue` (lines 204-216)
applied to one stored slot: add the 40 px centering offset to the `x`
values, take absolute width/height, clamp zero width/height to the scale
factor, and fill. -/
def flushDrawCalc (c : Nat) (r : Vid84Rect) : FillOp :=
  let x := r.x + 40
  let x2 := r.x2 + 40
  let width := |x2 - x|
  let height := |r.y2 - r.y|
  let height := if height = 0 then (c : Int) else height
  let width := if width = 0 then (c : Int) else width
  ⟨x, r.y, width, height⟩

/-- The draw computation of the live decoder (lines 292-300), applied to
a rectangle whose `x`/`x2` already carry the +40 offset (lines 289-290
mutate the rectangle before this computation). -/
def liveDrawCalc (c : Nat) (r : Vid84Rect) : FillOp :=
  let width := |r.x2 - r.x|
  let height := |r.y2 - r.y|
  let height := if height = 0 then (c : Int) else height
  let width := if width = 0 then (c : Int) else width
  ⟨r.x, r.y, width, height⟩

/-- The queue walk of `process_rectangle_queue` (lines 201-222): draw
slots in order, stopping at the first slot whose `x` is `-1`. -/
def flushQueue (c : Nat) : List Vid84Rect → List Ev
  | [] => []
  | r :: rest =>
    if r.x ≠ -1 then Ev.flushFill (flushDrawCalc c r) :: flushQueue c rest
    else []

/-- Function `process_rectangle_queue` (lines 198-226): the issued fills and the
reset queue. -/
def process_rectangle_queue (c : Nat) (q : List Vid84Rect) : List Ev × List Vid84Rect :=
  (flushQueue c q, init_render_queue)

/-! ## `begin_decode` (lines 228-336) -/

/-- Result of the inner `while(decoding_frame)` loop: the events it
produced, the cursor (left on the marker byte), the marker byte `data`
it stopped at, and the queue. -/
structure LiveOut where
  events : List Ev
  idx : Int
  data : Nat
  queue : List Vid84Rect
deriving Repr, DecidableEq

/-- The inner `while(decoding_frame)` loop (lines 260-306).  Fuel-based:
`none` models the C loop running off the end of the stream (undefined
behavior, never reached on well-formed streams).  Each iteration first
flushes the queue if its first slot is occupied (lines 263-264), then
reads one byte: a marker stops the loop without consuming it; otherwise
the byte is stored into the in-flight rectangle, and a completed
rectangle is offset, clamped and drawn (lines 287-303). -/
def liveLoop (c : Nat) (stream : List Nat) :
    Nat → Int → Nat → Vid84Rect → List Vid84Rect → Option LiveOut
  | 0, _, _, _, _ => none
  | fuel + 1, idx, rdi, rect, q =>
    let fq := if (q.getD 0 emptyRect).x ≠ -1
              then process_rectangle_queue c q else ([], q)
    let fevs := fq.1
    let q := fq.2
    let data := byteAtI stream idx
    if data = 255 ∨ data = 254 then
      some ⟨fevs, idx, data, q⟩
    else
      let rect := storeComp rect rdi ((data : Int) * (c : Int))
      let rdi := rdi + 1
      if rdi ≥ 4 then
        let rect := { rect with x := rect.x + 40, x2 := rect.x2 + 40 }
        let op := liveDrawCalc c rect
        match liveLoop c stream fuel (idx + 1) 0 rect q with
        | none => none
        | some o => some ⟨fevs ++ Ev.liveFill op :: o.events, o.idx, o.data, o.queue⟩
      else
        match liveLoop c stream fuel (idx + 1) rdi rect q with
        | none => none
        | some o => some ⟨fevs ++ o.events, o.idx, o.data, o.queue⟩

/-- Result of `begin_decode`: the event trace, the final cursor and the
number of frame cycles executed. -/
structure DecodeOut where
  events : List Ev
  idx : Int
  frames : Nat
deriving Repr, DecidableEq

/-- The outer `while(loop)` of `begin_decode` (lines 244-335), fuel-based.
Each cycle: canvas clear (`Ev.frameStart`), the inner live loop, then the
end-of-frame bookkeeping of lines 308-334: on a frame boundary the marker
is consumed; with off-time left (`budget frameNo = some N`) and not at
end of stream, a prefetch pass with expiry oracle `N` runs; at end of
stream the cycle just sleeps.  `frameNo` indexes the clock oracle. -/
def begin_decode (c : Nat) (stream : List Nat) (budget : Nat → Option Nat) :
    Nat → Nat → Int → List Vid84Rect → Option DecodeOut
  | 0, _, _, _ => none
  | fuel + 1, frameNo, idx, q =>
    match liveLoop c stream (stream.length + 1) idx 0 ⟨0, 0, 0, 0⟩ q with
    | none => none
    | some lo =>
      let eof := lo.data = 254
      let idx2 := if eof then lo.idx else lo.idx + 1
      match budget frameNo with
      | none =>
        if eof then some ⟨Ev.frameStart :: lo.events, idx2, 1⟩
        else
          match begin_decode c stream budget fuel (frameNo + 1) idx2 lo.queue with
          | none => none
          | some o => some ⟨(Ev.frameStart :: lo.events) ++ o.events, o.idx, o.frames + 1⟩
      | some N =>
        if eof then some ⟨Ev.frameStart :: lo.events, idx2, 1⟩
        else
          let pf := process_next_frame c stream N idx2 lo.queue
          match begin_decode c stream budget fuel (frameNo + 1)
                  pf.last_data_index pf.queue with
          | none => none
          | some o =>
            some ⟨(Ev.frameStart :: (lo.events ++ [Ev.prefetchEnd pf.rect_data_index]))
                    ++ o.events, o.idx, o.frames + 1⟩

/-- The full playback pipeline of `main`'s success path (lines 363-365):
queue initialisation, `prerender_first_frame` (clock oracle `preN`),
then `begin_decode`.  The pre-roll's interruption point is recorded as a
leading `Ev.prefetchEnd`. -/
def playback (c : Nat) (stream : List Nat) (preN : Nat)
    (budget : Nat → Option Nat) (fuel : Nat) : Option DecodeOut :=
  let pre := prerender_first_frame c stream preN
  match begin_decode c stream budget fuel 0 pre.last_data_index pre.queue with
  | none => none
  | some o => some { o with events := Ev.prefetchEnd pre.rect_data_index :: o.events }

/-! ## Observations on traces -/

/-- The fill operations of a trace, in order, forgetting whether each was
drawn by the flush or by the live decoder. -/
def fillsOf (es : List Ev) : List FillOp :=
  es.filterMap fun e =>
    match e with
    | Ev.flushFill op => some op
    | Ev.liveFill op => some op
    | _ => none

/-- Scanner for the per-frame ordering guarantee: within each frame
segment (delimited by `Ev.frameStart`), after a live fill has been seen
no flush fill may follow.  `b` is "a live fill was already seen in the
current frame". -/
def noFlushAfterLive : List Ev → Bool → Bool
  | [], _ => true
  | Ev.frameStart :: es, _ => noFlushAfterLive es false
  | Ev.liveFill _ :: es, _ => noFlushAfterLive es true
  | Ev.flushFill _ :: es, b => !b && noFlushAfterLive es b
  | Ev.prefetchEnd _ :: es, b => noFlushAfterLive es b

/-! ## Per-rectangle data flow of the two decode paths -/

/-- The live path for one record `(b0, b1, b2, b3)`: the four stores of
lines 276-279 (each byte times the scale factor) applied to the in-flight
rectangle `r0` (an uninitialised local in C), then the +40 offset and the
draw computation of lines 289-300. -/
def livePathOp (c : Nat) (r0 : Vid84Rect) (b0 b1 b2 b3 : Nat) : FillOp :=
  let rect := storeComp r0 0 ((b0 : Int) * (c : Int))
  let rect := storeComp rect 1 ((b1 : Int) * (c : Int))
  let rect := storeComp rect 2 ((b2 : Int) * (c : Int))
  let rect := storeComp rect 3 ((b3 : Int) * (c : Int))
  let rect := { rect with x := rect.x + 40, x2 := rect.x2 + 40 }
  liveDrawCalc c rect

/-- The prefetch-then-flush path for one record: the four queue-slot
stores of lines 144-147 into slot `i` of queue `q0`, then the flush draw
computation of lines 204-216 applied to that slot. -/
def flushPathOp (c : Nat) (q0 : List Vid84Rect) (i : Nat) (b0 b1 b2 b3 : Nat) : FillOp :=
  let q := storeComponent q0 i 0 ((b0 : Int) * (c : Int))
  let q := storeComponent q i 1 ((b1 : Int) * (c : Int))
  let q := storeComponent q i 2 ((b2 : Int) * (c : Int))
  let q := storeComponent q i 3 ((b3 : Int) * (c : Int))
  flushDrawCalc c (q.getD i emptyRect)

/-- The fill operation as the specification words it (§4.5): origin
`(raw.x*s + 40, raw.y*s)`, width `|raw.x2*s + 40 - (raw.x*s + 40)|`,
height `|raw.y2*s - raw.y*s|`, a zero width or height replaced by the
scale factor.  Stated from the spec's words, for comparison with the two
code paths. -/
def specFillOp (s b0 b1 b2 b3 : Nat) : FillOp :=
  let x : Int := (b0 : Int) * (s : Int) + 40
  let y : Int := (b1 : Int) * (s : Int)
  let w : Int := |((b2 : Int) * (s : Int) + 40) - ((b0 : Int) * (s : Int) + 40)|
  let h : Int := |(b3 : Int) * (s : Int) - (b1 : Int) * (s : Int)|
  ⟨x, y, if w = 0 then (s : Int) else w, if h = 0 then (s : Int) else h⟩

/-- The canonical fill operation of one record: the live path applied to
a fresh in-flight rectangle (both paths issue exactly this, see the
equivalence theorems below). -/
def POp (c : Nat) (r : RawRect) : FillOp :=
  livePathOp c ⟨0, 0, 0, 0⟩ r.x r.y r.x2 r.y2

/-! ## Derived descriptions of reachable states (used by the proofs) -/

/-- The queue slot contents for a fully decoded record: each byte times
the scale factor (the +40 offset is applied only at flush time). -/
def decRect (c : Nat) (r : RawRect) : Vid84Rect :=
  ⟨(r.x : Int) * (c : Int), (r.y : Int) * (c : Int),
   (r.x2 : Int) * (c : Int), (r.y2 : Int) * (c : Int)⟩

/-- The queue slot contents after only the first `m` components of record
`r` were stored (`m ≤ 3`); the remaining fields still hold the `-1`
sentinel. -/
def partialRect (c : Nat) (r : RawRect) (m : Nat) : Vid84Rect :=
  { x := if 1 ≤ m then (r.x : Int) * (c : Int) else -1,
    y := if 2 ≤ m then (r.y : Int) * (c : Int) else -1,
    x2 := if 3 ≤ m then (r.x2 : Int) * (c : Int) else -1,
    y2 := -1 }

/-- The queue after `p` whole records of frame `g` plus `m` components of
record `p` have been stored by a prefetch pass (`p + min m 1 ≤ 32`). -/
def midQueue (c : Nat) (g : List RawRect) (p m : Nat) : List Vid84Rect :=
  (g.take p).map (decRect c) ++
  (if m = 0 then [] else [partialRect c (g.getD p ⟨0, 0, 0, 0⟩) m]) ++
  List.replicate (32 - p - (if m = 0 then 0 else 1)) emptyRect

/-- The queue after exactly `p` whole records of frame `g` were stored. -/
def decQueue (c : Nat) (g : List RawRect) (p : Nat) : List Vid84Rect :=
  midQueue c g p 0

/-- Derived closed form of the prefetch-pass state after `M` body
iterations, when the pass starts fresh at the first byte of a frame `g`
(stream offset `n0`) that is followed by a marker.  Consumption stops at
`min (4 * g.length) 128` bytes (marker reached or queue full); iteration
`M` has consumed `min M` of that. -/
def prefetchStateAt (c : Nat) (g : List RawRect) (n0 : Nat) (M : Nat) : PrefetchSt :=
  let stop := min (4 * g.length) 128
  let cons := min M stop
  { last_data_index := ((n0 + cons : Nat) : Int),
    queue := midQueue c g (cons / 4) (cons % 4),
    rect_data_index := cons % 4,
    rect_queue_index := cons / 4,
    queue_full := decide (32 ≤ cons / 4),
    end_of_frame := decide (cons < 128 ∧ cons = 4 * g.length ∧ cons < M) }

/-- Alignment condition on the clock oracle of `begin_decode`: each
prefetch pass that runs (frame `i`'s off-time, prefetching the following
frame) expires only after a whole number of records.  The number of bytes
a pass over a frame `g` can consume is `min (N + 1) (min (4*g.length) 128)`,
so the condition is that this count is a multiple of 4. -/
def alignedBudget (budget : Nat → Option Nat) (frameNo : Nat) :
    List (List RawRect) → Prop
  | [] => True
  | _ :: rest =>
    (match rest with
     | [] => True
     | g :: _ =>
       ∀ N, budget frameNo = some N →
         (min (N + 1) (min (4 * g.length) 128)) % 4 = 0) ∧
    alignedBudget budget (frameNo + 1) rest

/-- Concrete header-plus-initial-marker prefix used by witnesses (the
decoder never reads bytes 0-8, so their values are irrelevant). -/
def hdr9 : List Nat := List.replicate 9 0

/-- Concrete frame of 33 identical records used by witnesses. -/
def frame33 : List RawRect := List.replicate 33 ⟨1, 1, 2, 2⟩

/-! ## List helper lemmas (general purpose) -/

theorem getD_append_add {α : Type} (xs ys : List α) (j : Nat) (d : α) :
    (xs ++ ys).getD (xs.length + j) d = ys.getD j d := by
  induction xs with
  | nil => simp
  | cons x xs ih => simpa [List.length_cons, Nat.succ_add] using ih

theorem getD_append_lt {α : Type} (xs ys : List α) (j : Nat) (d : α) (h : j < xs.length) :
    (xs ++ ys).getD j d = xs.getD j d := by
  induction xs generalizing j with
  | nil => simp at h
  | cons x xs ih =>
    cases j with
    | zero => simp
    | succ j => simpa using ih j (by simpa using h)

theorem set_append_add {α : Type} (xs ys : List α) (v : α) :
    (xs ++ ys).set xs.length v = xs ++ ys.set 0 v := by
  induction xs with
  | nil => simp
  | cons x xs ih => simp [List.set, ih]

theorem take_succ_getD {α : Type} (g : List α) (p : Nat) (d : α) (h : p < g.length) :
    g.take (p + 1) = g.take p ++ [g.getD p d] := by
  induction g generalizing p with
  | nil => simp at h
  | cons x g ih =>
    cases p with
    | zero => simp
    | succ p => simpa using ih p (by simpa using h)

theorem getD_set_self {α : Type} (xs : List α) (i : Nat) (v : α) (d : α) (h : i < xs.length) :
    (xs.set i v).getD i d = v := by
  induction xs generalizing i with
  | nil => simp at h
  | cons x xs ih =>
    cases i with
    | zero => simp
    | succ i => simpa using ih i (by simpa using h)


theorem getD_mem {α : Type} (l : List α) (i : Nat) (d : α) (h : i < l.length) :
    l.getD i d ∈ l := by
  induction l generalizing i with
  | nil => simp at h
  | cons x l ih =>
    cases i with
    | zero => simp
    | succ i => exact List.mem_cons_of_mem _ (ih i (by simpa using h))

theorem getD_append_len {α : Type} (xs ys : List α) (n : Nat) (d : α) (h : n = xs.length) :
    (xs ++ ys).getD n d = ys.getD 0 d := by
  subst h
  simpa using getD_append_add xs ys 0 d

theorem set_append_len {α : Type} (xs ys : List α) (n : Nat) (v : α) (h : n = xs.length) :
    (xs ++ ys).set n v = xs ++ ys.set 0 v := by
  subst h
  exact set_append_add xs ys v

/-! ## Header validation: claims C7 and C8 -/

/-- C7: header validation succeeds if and only if bytes 0-4 spell
`84VID` (ASCII 56, 52, 86, 73, 68), byte 5 (`frame_rate`) is in
`[1, 63]`, byte 6 (`format_version`) equals 1, byte 7 (`scale_factor`)
is in `[1, 6]`, and the final stream byte equals `0xFE`; violating any
single condition makes validation fail. -/
theorem c7_header_validation_iff (s : List Nat) :
    retrieve_data_from_video s = true ↔
      ((byteAt s 0 = 56 ∧ byteAt s 1 = 52 ∧ byteAt s 2 = 86 ∧
        byteAt s 3 = 73 ∧ byteAt s 4 = 68) ∧
       (1 ≤ byteAt s 5 ∧ byteAt s 5 ≤ 63) ∧
       byteAt s 6 = 1 ∧
       (1 ≤ byteAt s 7 ∧ byteAt s 7 ≤ 6) ∧
       byteAt s (s.length - 1) = 254) := by
  unfold retrieve_data_from_video
  split_ifs with h1 h2 h3 h4 h5 <;>
    simp_all <;> omega

/-- C8 (counterexample): the validator's result does not make the
failing check distinguishable.  Two headers that fail different checks
(bad magic versus frame rate zero) produce the identical result
`false`; the failing check is recoverable from the stream by re-running
the checks (`headerFailKind`), not from the validator's result. -/
theorem c8_result_indistinguishable :
    retrieve_data_from_video (List.replicate 14 0) =
      retrieve_data_from_video [56, 52, 86, 73, 68, 0, 1, 2, 255, 254] ∧
    headerFailKind (List.replicate 14 0) = some HeaderFail.invalidMagic ∧
    headerFailKind [56, 52, 86, 73, 68, 0, 1, 2, 255, 254] =
      some HeaderFail.invalidFrameRate ∧
    HeaderFail.invalidMagic ≠ HeaderFail.invalidFrameRate := by
  decide

/-- C8 (amended): the validator performs the five checks in a fixed
order and rejects at the first failure, but returns only a boolean: it
succeeds exactly when the detailed check `headerFailKind` (the first
failing check, named) reports no failure, so the failing check is
distinguishable internally only by re-running the checks, not from the
validator's returned result. -/
theorem c8_bool_agrees_with_detailed (s : List Nat) :
    retrieve_data_from_video s = (headerFailKind s).isNone := by
  unfold retrieve_data_from_video headerFailKind
  split_ifs <;> rfl

/-! ## Coordinate mapping: claims C2 and C9 -/

theorem length_storeComponent (q : List Vid84Rect) (i comp : Nat) (v : Int) :
    (storeComponent q i comp v).length = q.length := by
  simp [storeComponent]

theorem getD_storeComponent_self (q : List Vid84Rect) (i comp : Nat) (v : Int)
    (h : i < q.length) :
    (storeComponent q i comp v).getD i emptyRect =
      storeComp (q.getD i emptyRect) comp v := by
  unfold storeComponent
  exact getD_set_self _ _ _ _ h

/-- C2: for every raw record and scale factor, the issued fill has
origin `(raw.x*s + 40, raw.y*s)`, width
`|raw.x2*s + 40 - (raw.x*s + 40)|` and height `|raw.y2*s - raw.y*s|`,
a zero width or height replaced by `s` — identically on the live path
and on the prefetch/flush path (any initial in-flight rectangle `r0`,
any queue `q0` and in-range slot `i`). -/
theorem c2_coordinate_mapping (s b0 b1 b2 b3 : Nat) (r0 : Vid84Rect)
    (q0 : List Vid84Rect) (i : Nat)
    (_hs1 : 1 ≤ s) (_hs6 : s ≤ 6)
    (_hb0 : b0 ≤ 255) (_hb1 : b1 ≤ 255) (_hb2 : b2 ≤ 255) (_hb3 : b3 ≤ 255)
    (hi : i < q0.length) :
    livePathOp s r0 b0 b1 b2 b3 = specFillOp s b0 b1 b2 b3 ∧
    flushPathOp s q0 i b0 b1 b2 b3 = specFillOp s b0 b1 b2 b3 := by
  constructor
  · simp [livePathOp, storeComp, liveDrawCalc, specFillOp]
  · simp only [flushPathOp]
    rw [getD_storeComponent_self _ _ _ _ (by simp [length_storeComponent]; omega),
        getD_storeComponent_self _ _ _ _ (by simp [length_storeComponent]; omega),
        getD_storeComponent_self _ _ _ _ (by simp [length_storeComponent]; omega),
        getD_storeComponent_self _ _ _ _ hi]
    simp [storeComp, flushDrawCalc, specFillOp]

/-- C2 witness at the spec's own example: scale 2, record
`(10, 10, 20, 20)`, drawn at `x = 60, y = 20` with width and height 20
on both paths. -/
theorem c2_coordinate_mapping_witness :
    (1 ≤ 2 ∧ 2 ≤ 6 ∧ 10 ≤ 255 ∧ 20 ≤ 255 ∧ (0 : Nat) < init_render_queue.length) ∧
    (livePathOp 2 ⟨0, 0, 0, 0⟩ 10 10 20 20 = specFillOp 2 10 10 20 20 ∧
     flushPathOp 2 init_render_queue 0 10 10 20 20 = specFillOp 2 10 10 20 20) :=
  ⟨by decide,
   c2_coordinate_mapping 2 10 10 20 20 ⟨0, 0, 0, 0⟩ init_render_queue 0
     (by decide) (by decide) (by decide) (by decide) (by decide) (by decide)
     (by decide)⟩

/-- C9: the two decode paths are draw-equivalent.  A record decoded by
the prefetch pass (which stores each byte times the scale factor and
adds the 40 px offset only at flush time) and then flushed issues
exactly the fill the live decoder issues for the same record, for any
initial in-flight rectangle, queue and in-range slot. -/
theorem c9_paths_draw_equivalent (c b0 b1 b2 b3 : Nat) (r0 : Vid84Rect)
    (q0 : List Vid84Rect) (i : Nat) (hi : i < q0.length) :
    livePathOp c r0 b0 b1 b2 b3 = flushPathOp c q0 i b0 b1 b2 b3 := by
  simp only [flushPathOp]
  rw [getD_storeComponent_self _ _ _ _ (by simp [length_storeComponent]; omega),
      getD_storeComponent_self _ _ _ _ (by simp [length_storeComponent]; omega),
      getD_storeComponent_self _ _ _ _ (by simp [length_storeComponent]; omega),
      getD_storeComponent_self _ _ _ _ hi]
  simp [livePathOp, storeComp, liveDrawCalc, flushDrawCalc]

/-- C9 witness at a concrete record and queue. -/
theorem c9_paths_draw_equivalent_witness :
    ((0 : Nat) < init_render_queue.length) ∧
    livePathOp 3 ⟨7, 7, 7, 7⟩ 1 2 3 4 = flushPathOp 3 init_render_queue 0 1 2 3 4 :=
  ⟨by decide,
   c9_paths_draw_equivalent 3 1 2 3 4 ⟨7, 7, 7, 7⟩ init_render_queue 0 (by decide)⟩

/-! ## The prefetch loop: basic lemmas and claim C4 -/

theorem prefetchRun_fst (c : Nat) (stream : List Nat) :
    ∀ (N : Nat) (s : PrefetchSt),
      (prefetchRun c stream N s).1 = (prefetchStep c stream)^[N + 1] s := by
  intro N
  induction N with
  | zero => intro s; simp [prefetchRun]
  | succ n ih =>
    intro s
    simp only [prefetchRun, ih, ← Function.iterate_succ_apply]

theorem prefetchRun_snd (c : Nat) (stream : List Nat) :
    ∀ (N : Nat) (s : PrefetchSt), (prefetchRun c stream N s).2 = N + 1 := by
  intro N
  induction N with
  | zero => intro s; simp [prefetchRun]
  | succ n ih => intro s; simp [prefetchRun, ih]

theorem prefetchStep_frozen (c : Nat) (stream : List Nat) (s : PrefetchSt)
    (h : s.queue_full = true ∨ s.end_of_frame = true) :
    prefetchStep c stream s = s := by
  rcases h with h | h <;> simp [prefetchStep, h]

/-- C4 (amended): once the queue is full or a marker has been reached, a
prefetch pass consumes nothing further and leaves all state unchanged —
but the pass itself does not terminate early: its loop keeps running
(performing only the time check) and always executes exactly `N + 1`
iterations, where `N` is the first iteration whose time check reports
the budget exhausted. -/
theorem c4_prefetch_stops_consuming_but_spins (c : Nat) (stream : List Nat)
    (N : Nat) (s : PrefetchSt) :
    ((s.queue_full = true ∨ s.end_of_frame = true) →
       (prefetchRun c stream N s).1 = s) ∧
    (prefetchRun c stream N s).2 = N + 1 := by
  refine ⟨fun h => ?_, prefetchRun_snd c stream N s⟩
  rw [prefetchRun_fst]
  exact Function.iterate_fixed (prefetchStep_frozen c stream s h) (N + 1)

/-- C4 witness: from a state that already saw the frame marker, a pass
with budget expiring at check 5 changes nothing and runs 6 iterations. -/
theorem c4_prefetch_stops_consuming_but_spins_witness :
    ({ freshPass 9 init_render_queue with end_of_frame := true } : PrefetchSt).end_of_frame = true ∧
    (prefetchRun 1 [255] 5 { freshPass 9 init_render_queue with end_of_frame := true }).1 =
      { freshPass 9 init_render_queue with end_of_frame := true } ∧
    (prefetchRun 1 [255] 5 { freshPass 9 init_render_queue with end_of_frame := true }).2 = 6 :=
  ⟨by decide,
   (c4_prefetch_stops_consuming_but_spins 1 [255] 5 _).1 (Or.inr (by decide)),
   (c4_prefetch_stops_consuming_but_spins 1 [255] 5 _).2⟩

/-- C4 (counterexample): a prefetch pass does not terminate as soon as a
marker is reached.  Starting at a frame-boundary byte, the marker is
seen during the very first iteration, yet with the budget expiring at
time check 5 the loop still executes 6 iterations — it runs on, checking
the clock, until the budget is exhausted. -/
theorem c4_counterexample_pass_runs_past_marker :
    (prefetchStep 1 [255] (freshPass 0 init_render_queue)).end_of_frame = true ∧
    (prefetchRun 1 [255] 5 (freshPass 0 init_render_queue)).2 = 6 := by
  decide

/-! ## Frame byte layout lemmas -/

theorem length_rectBytes (r : RawRect) : (rectBytes r).length = 4 := rfl

theorem frameBytes_nil : frameBytes [] = [] := rfl

theorem frameBytes_cons (r : RawRect) (g : List RawRect) :
    frameBytes (r :: g) = rectBytes r ++ frameBytes g := by
  simp [frameBytes]

theorem frameBytes_append (f g : List RawRect) :
    frameBytes (f ++ g) = frameBytes f ++ frameBytes g := by
  simp [frameBytes]

theorem length_frameBytes (g : List RawRect) :
    (frameBytes g).length = 4 * g.length := by
  induction g with
  | nil => simp [frameBytes]
  | cons r g ih =>
    rw [frameBytes_cons]
    simp only [List.length_append, length_rectBytes, List.length_cons, ih]
    omega

theorem getD_frameBytes (g : List RawRect) (j : Nat) (hj : j < 4 * g.length) :
    (frameBytes g).getD j 0 = rectComp (g.getD (j / 4) ⟨0, 0, 0, 0⟩) (j % 4) := by
  induction g generalizing j with
  | nil => simp at hj
  | cons r g ih =>
    rw [frameBytes_cons]
    by_cases h4 : j < 4
    · rw [getD_append_lt _ _ _ _ (by rw [length_rectBytes]; omega)]
      have hj4 : j / 4 = 0 := by omega
      have hjm : j % 4 = j := by omega
      rw [hj4, hjm]
      interval_cases j <;> rfl
    · obtain ⟨j2, rfl⟩ : ∃ j2, j = 4 + j2 := ⟨j - 4, by omega⟩
      rw [show (4 : Nat) + j2 = (rectBytes r).length + j2 by rw [length_rectBytes],
          getD_append_add, ih j2 (by simp only [List.length_cons] at hj; omega)]
      rw [length_rectBytes]
      have h1 : (4 + j2) / 4 = j2 / 4 + 1 := by omega
      have h2 : (4 + j2) % 4 = j2 % 4 := by omega
      rw [h1, h2]
      rfl

theorem byteAt_in_frame (A : List Nat) (g : List RawRect) (mrk : Nat) (B : List Nat)
    (j : Nat) (hj : j < 4 * g.length) :
    byteAtI (A ++ frameBytes g ++ mrk :: B) ((A.length + j : Nat) : Int) =
      rectComp (g.getD (j / 4) ⟨0, 0, 0, 0⟩) (j % 4) := by
  unfold byteAtI
  rw [Int.toNat_natCast, List.append_assoc, getD_append_add,
      getD_append_lt _ _ _ _ (by rw [length_frameBytes]; omega)]
  exact getD_frameBytes g j hj

theorem byteAt_at_marker (A : List Nat) (g : List RawRect) (mrk : Nat) (B : List Nat) :
    byteAtI (A ++ frameBytes g ++ mrk :: B) ((A.length + 4 * g.length : Nat) : Int) = mrk := by
  unfold byteAtI
  rw [Int.toNat_natCast, List.append_assoc, getD_append_add,
      getD_append_len _ _ _ _ (length_frameBytes g).symm]
  rfl

theorem goodRect_comp (r : RawRect) (h : GoodRect r) (m : Nat) :
    rectComp r m < 254 := by
  obtain ⟨h1, h2, h3, h4⟩ := h
  unfold rectComp
  split <;> omega

/-! ## Queue shape lemmas -/

theorem midQueue_zero_zero (c : Nat) (g : List RawRect) :
    midQueue c g 0 0 = init_render_queue := by
  simp [midQueue, init_render_queue, RECTANGLE_QUEUE_COUNT]

theorem decQueue_eq (c : Nat) (g : List RawRect) (p : Nat) :
    decQueue c g p = (g.take p).map (decRect c) ++ List.replicate (32 - p) emptyRect := by
  simp [decQueue, midQueue]

theorem midQueue_succ_m (c : Nat) (g : List RawRect) (p m : Nat) (hm : m ≠ 0) :
    midQueue c g p m =
      (g.take p).map (decRect c) ++
        partialRect c (g.getD p ⟨0, 0, 0, 0⟩) m ::
          List.replicate (32 - p - 1) emptyRect := by
  simp [midQueue, hm]

/-- Storing component 0 of record `p` into the fresh slot `p`. -/
theorem midQueue_store0 (c : Nat) (g : List RawRect) (p : Nat) (hp32 : p < 32)
    (hP : ((g.take p).map (decRect c)).length = p) :
    storeComponent (midQueue c g p 0) p 0
        (((rectComp (g.getD p ⟨0, 0, 0, 0⟩) 0 : Nat) : Int) * (c : Int)) =
      midQueue c g p 1 := by
  have h0 : midQueue c g p 0 =
      (g.take p).map (decRect c) ++ List.replicate (32 - p) emptyRect :=
    decQueue_eq c g p
  unfold storeComponent
  rw [h0, midQueue_succ_m c g p 1 (by omega)]
  rw [getD_append_len _ _ _ _ hP.symm, set_append_len _ _ _ _ hP.symm]
  rw [show 32 - p = (32 - p - 1) + 1 by omega, List.replicate_succ]
  simp [storeComp, emptyRect, partialRect, rectComp]

/-- Storing component `m` (`m = 1, 2`) of record `p` into slot `p`. -/
theorem midQueue_store12 (c : Nat) (g : List RawRect) (p m : Nat)
    (hm : m = 1 ∨ m = 2)
    (hP : ((g.take p).map (decRect c)).length = p) :
    storeComponent (midQueue c g p m) p m
        (((rectComp (g.getD p ⟨0, 0, 0, 0⟩) m : Nat) : Int) * (c : Int)) =
      midQueue c g p (m + 1) := by
  unfold storeComponent
  rw [midQueue_succ_m c g p m (by omega), midQueue_succ_m c g p (m + 1) (by omega)]
  rw [getD_append_len _ _ _ _ hP.symm, set_append_len _ _ _ _ hP.symm]
  rcases hm with rfl | rfl <;>
    simp [storeComp, partialRect, rectComp]

/-- Storing the final component of record `p` completes slot `p`. -/
theorem midQueue_store3 (c : Nat) (g : List RawRect) (p : Nat) (hp : p < g.length)
    (hP : ((g.take p).map (decRect c)).length = p) :
    storeComponent (midQueue c g p 3) p 3
        (((rectComp (g.getD p ⟨0, 0, 0, 0⟩) 3 : Nat) : Int) * (c : Int)) =
      midQueue c g (p + 1) 0 := by
  have h0 : midQueue c g (p + 1) 0 =
      (g.take (p + 1)).map (decRect c) ++ List.replicate (32 - (p + 1)) emptyRect :=
    decQueue_eq c g (p + 1)
  unfold storeComponent
  rw [midQueue_succ_m c g p 3 (by omega), h0]
  rw [take_succ_getD g p ⟨0, 0, 0, 0⟩ hp, List.map_append,
      getD_append_len _ _ _ _ hP.symm, set_append_len _ _ _ _ hP.symm,
      List.append_assoc]
  rw [show 32 - (p + 1) = 32 - p - 1 by omega]
  simp [storeComp, partialRect, decRect, rectComp]

/-! ## The prefetch pass characterisation -/

/-- Closed form for the iterated prefetch-loop body: a pass starting
fresh at the first byte of frame `g` (offset `A.length`, markers after
the frame) has, after `M` body iterations, consumed
`min M (min (4*g.length) 128)` bytes, holds them in the queue, and its
flags reflect whether it hit the queue capacity or the trailing
marker. -/
theorem prefetch_iterate (c : Nat) (A : List Nat) (g : List RawRect) (mrk : Nat)
    (B : List Nat) (hg : ∀ r ∈ g, GoodRect r) (hmk : mrk = 254 ∨ mrk = 255) :
    ∀ M, (prefetchStep c (A ++ frameBytes g ++ mrk :: B))^[M]
        (freshPass ((A.length : Nat) : Int) init_render_queue) =
      prefetchStateAt c g A.length M := by
  intro M
  induction M with
  | zero =>
    simp [Function.iterate_zero_apply, prefetchStateAt, freshPass, midQueue_zero_zero]
  | succ M ih =>
    rw [Function.iterate_succ_apply', ih]
    by_cases hM : M < min (4 * g.length) 128
    · -- a consuming iteration
      have hcons : min M (min (4 * g.length) 128) = M := by omega
      have hcons1 : min (M + 1) (min (4 * g.length) 128) = M + 1 := by omega
      have hdiv32 : M / 4 < 32 := by omega
      have hdivg : M / 4 < g.length := by omega
      have hbyte : byteAtI (A ++ frameBytes g ++ mrk :: B)
          ((A.length + M : Nat) : Int) =
            rectComp (g.getD (M / 4) ⟨0, 0, 0, 0⟩) (M % 4) :=
        byteAt_in_frame A g mrk B M (by omega)
      have hgood : rectComp (g.getD (M / 4) ⟨0, 0, 0, 0⟩) (M % 4) < 254 :=
        goodRect_comp _ (hg _ (getD_mem g (M / 4) _ hdivg)) _
      have hfull : (decide (32 ≤ M / 4)) = false := decide_eq_false (by omega)
      have heof : (decide (M < 128 ∧ M = 4 * g.length ∧ M < M)) = false :=
        decide_eq_false (by omega)
      have hne1 : rectComp (g.getD (M / 4) ⟨0, 0, 0, 0⟩) (M % 4) ≠ 254 := by omega
      have hne2 : rectComp (g.getD (M / 4) ⟨0, 0, 0, 0⟩) (M % 4) ≠ 255 := by omega
      have hP : ((g.take (M / 4)).map (decRect c)).length = M / 4 := by
        simp [List.length_take]
        omega
      have heof1 : decide (M + 1 < 128 ∧ M + 1 = 4 * g.length ∧ M + 1 < M + 1) = false :=
        decide_eq_false (by omega)
      simp only [prefetchStateAt]
      rw [hcons, hcons1, hfull, heof]
      simp only [prefetchStep, hbyte]
      simp only [hne1, hne2, ne_eq, not_false_iff, and_self, if_true, if_pos]
      have hm4 : M % 4 = 0 ∨ M % 4 = 1 ∨ M % 4 = 2 ∨ M % 4 = 3 := by omega
      rcases hm4 with hm | hm | hm | hm <;> rw [hm]
      · rw [if_neg (by omega), midQueue_store0 c g (M / 4) hdiv32 hP,
            show (M + 1) / 4 = M / 4 by omega, show (M + 1) % 4 = 1 by omega,
            show (A.length + (M + 1) : Nat) = (A.length + M) + 1 by omega,
            hfull, heof1]
        push_cast
        rfl
      · rw [if_neg (by omega), midQueue_store12 c g (M / 4) 1 (Or.inl rfl) hP,
            show (M + 1) / 4 = M / 4 by omega, show (M + 1) % 4 = 2 by omega,
            show (A.length + (M + 1) : Nat) = (A.length + M) + 1 by omega,
            hfull, heof1]
        push_cast
        rfl
      · rw [if_neg (by omega), midQueue_store12 c g (M / 4) 2 (Or.inr rfl) hP,
            show (M + 1) / 4 = M / 4 by omega, show (M + 1) % 4 = 3 by omega,
            show (A.length + (M + 1) : Nat) = (A.length + M) + 1 by omega,
            hfull, heof1]
        push_cast
        rfl
      · rw [if_pos (by omega), midQueue_store3 c g (M / 4) hdivg hP,
            show (M + 1) / 4 = M / 4 + 1 by omega, show (M + 1) % 4 = 0 by omega,
            show (A.length + (M + 1) : Nat) = (A.length + M) + 1 by omega,
            heof1]
        push_cast
        congr 1
        exact decide_eq_decide.mpr (by unfold RECTANGLE_QUEUE_COUNT; omega)
    · -- consumption has stopped: the state is frozen or sees the marker
      have hcons : min M (min (4 * g.length) 128) = min (4 * g.length) 128 := by
        omega
      have hcons1 : min (M + 1) (min (4 * g.length) 128) = min (4 * g.length) 128 := by
        omega
      by_cases h128 : min (4 * g.length) 128 = 128
      · -- queue full: the step is the identity
        have hq : (prefetchStateAt c g A.length M).queue_full = true := by
          simp only [prefetchStateAt]
          rw [hcons]
          exact decide_eq_true (by omega)
        rw [prefetchStep_frozen _ _ _ (Or.inl hq)]
        simp only [prefetchStateAt]
        rw [hcons, hcons1]
        congr 1
        exact decide_eq_decide.mpr (by omega)
      · -- the pass stopped at the trailing marker, 4 * g.length < 128
        by_cases hMg : 4 * g.length < M
        · -- marker already seen: end_of_frame is set, step is the identity
          have hq : (prefetchStateAt c g A.length M).end_of_frame = true := by
            simp only [prefetchStateAt]
            rw [hcons]
            exact decide_eq_true (by omega)
          rw [prefetchStep_frozen _ _ _ (Or.inr hq)]
          simp only [prefetchStateAt]
          rw [hcons, hcons1]
          congr 1
          exact decide_eq_decide.mpr (by omega)
        · -- this very iteration reads the marker and sets end_of_frame
          have hMeq : M = 4 * g.length := by omega
          have hfull : (decide (32 ≤ min (4 * g.length) 128 / 4)) = false :=
            decide_eq_false (by omega)
          have heof : (decide (min (4 * g.length) 128 < 128 ∧
              min (4 * g.length) 128 = 4 * g.length ∧
              min (4 * g.length) 128 < M)) = false := decide_eq_false (by omega)
          have hbyte : byteAtI (A ++ frameBytes g ++ mrk :: B)
              ((A.length + min (4 * g.length) 128 : Nat) : Int) = mrk := by
            rw [show min (4 * g.length) 128 = 4 * g.length by omega]
            exact byteAt_at_marker A g mrk B
          have hmk2 : ¬(mrk ≠ 254 ∧ mrk ≠ 255) := by
            rcases hmk with h | h <;> simp [h]
          simp only [prefetchStateAt]
          rw [hcons, hcons1, hfull, heof]
          simp only [prefetchStep, hbyte]
          rw [if_pos (by simp), if_neg hmk2]
          congr 1
          exact (decide_eq_true (by omega)).symm
/-- The finalised result of an aligned prefetch pass over a frame `g`
starting at the frame's first byte: with
`cons := min (N + 1) (min (4*g.length) 128)` a multiple of 4, the pass
commits exactly `cons / 4` whole records, leaves the cursor right after
them, and is not interrupted mid-record. -/
theorem process_next_frame_aligned (c : Nat) (A : List Nat) (g : List RawRect)
    (mrk : Nat) (B : List Nat) (N : Nat)
    (hg : ∀ r ∈ g, GoodRect r) (hmk : mrk = 254 ∨ mrk = 255)
    (halign : min (N + 1) (min (4 * g.length) 128) % 4 = 0) :
    process_next_frame c (A ++ frameBytes g ++ mrk :: B) N
        ((A.length : Nat) : Int) init_render_queue =
      { last_data_index :=
          ((A.length + min (N + 1) (min (4 * g.length) 128) : Nat) : Int),
        queue := decQueue c g (min (N + 1) (min (4 * g.length) 128) / 4),
        rect_data_index := 0,
        rect_queue_index := min (N + 1) (min (4 * g.length) 128) / 4,
        queue_full := decide (32 ≤ min (N + 1) (min (4 * g.length) 128) / 4),
        end_of_frame := decide (min (N + 1) (min (4 * g.length) 128) < 128 ∧
          min (N + 1) (min (4 * g.length) 128) = 4 * g.length ∧
          min (N + 1) (min (4 * g.length) 128) < N + 1) } := by
  unfold process_next_frame
  rw [prefetchRun_fst, prefetch_iterate c A g mrk B hg hmk (N + 1)]
  simp only [prefetchStateAt, prefetchFinalize, halign]
  rw [if_pos (by omega)]
  simp [decQueue]

/-! ## Claim C3: checkpoint rollback on interruption -/

/-- C3: a prefetch pass over a frame `g`, interrupted by time-budget
exhaustion (first expired check `N`), ends with
`pending_components = cons % 4` where
`cons = min (N + 1) (min (4*g.length) 128)` is the number of bytes it
consumed.  When that pending count is 0, 1 or 2, the cursor is rewound
by exactly that many bytes, landing on the first byte of the partial
record (offset `A.length + 4 * (cons / 4)`), so the next invocation
re-reads it from its first byte; when it is 3 no rollback happens: the
cursor stays at `A.length + cons` and the three consumed bytes are lost
(the following byte will start a misaligned new record). -/
theorem c3_rollback_on_interruption (c : Nat) (A : List Nat) (g : List RawRect)
    (mrk : Nat) (B : List Nat) (N : Nat)
    (hg : ∀ r ∈ g, GoodRect r) (hmk : mrk = 254 ∨ mrk = 255) :
    (prefetchRun c (A ++ frameBytes g ++ mrk :: B) N
        (freshPass ((A.length : Nat) : Int) init_render_queue)).1.rect_data_index =
      min (N + 1) (min (4 * g.length) 128) % 4 ∧
    (min (N + 1) (min (4 * g.length) 128) % 4 ≠ 3 →
      (process_next_frame c (A ++ frameBytes g ++ mrk :: B) N
          ((A.length : Nat) : Int) init_render_queue).last_data_index =
        ((A.length + 4 * (min (N + 1) (min (4 * g.length) 128) / 4) : Nat) : Int)) ∧
    (min (N + 1) (min (4 * g.length) 128) % 4 = 3 →
      (process_next_frame c (A ++ frameBytes g ++ mrk :: B) N
          ((A.length : Nat) : Int) init_render_queue).last_data_index =
        ((A.length + min (N + 1) (min (4 * g.length) 128) : Nat) : Int)) := by
  have hrun : (prefetchRun c (A ++ frameBytes g ++ mrk :: B) N
      (freshPass ((A.length : Nat) : Int) init_render_queue)).1 =
        prefetchStateAt c g A.length (N + 1) := by
    rw [prefetchRun_fst, prefetch_iterate c A g mrk B hg hmk (N + 1)]
  have hpnf : process_next_frame c (A ++ frameBytes g ++ mrk :: B) N
      ((A.length : Nat) : Int) init_render_queue =
        prefetchFinalize (prefetchStateAt c g A.length (N + 1)) := by
    unfold process_next_frame
    rw [hrun]
  refine ⟨by rw [hrun]; rfl, fun hp => ?_, fun hp => ?_⟩
  · rw [hpnf]
    simp only [prefetchFinalize, prefetchStateAt]
    rw [if_pos (by exact hp)]
    have hle : min (N + 1) (min (4 * g.length) 128) % 4 ≤
        min (N + 1) (min (4 * g.length) 128) := Nat.mod_le _ _
    push_cast
    omega
  · rw [hpnf]
    simp only [prefetchFinalize, prefetchStateAt]
    rw [if_neg (by simp [hp])]

/-- C3 witness: one record, budget expiring at check 1: two bytes are
consumed, the pending count is 2 and the cursor is rewound to the
record's first byte (offset 9). -/
theorem c3_rollback_on_interruption_witness :
    (∀ r ∈ ([⟨1, 2, 3, 4⟩] : List RawRect), GoodRect r) ∧
    ((prefetchRun 1 (List.replicate 9 0 ++ frameBytes [⟨1, 2, 3, 4⟩] ++ 254 :: []) 1
        (freshPass (((List.replicate 9 (0 : Nat)).length : Nat) : Int)
          init_render_queue)).1.rect_data_index =
      min (1 + 1) (min (4 * ([⟨1, 2, 3, 4⟩] : List RawRect).length) 128) % 4 ∧
    (min (1 + 1) (min (4 * ([⟨1, 2, 3, 4⟩] : List RawRect).length) 128) % 4 ≠ 3 →
      (process_next_frame 1 (List.replicate 9 0 ++ frameBytes [⟨1, 2, 3, 4⟩] ++ 254 :: []) 1
          (((List.replicate 9 (0 : Nat)).length : Nat) : Int)
          init_render_queue).last_data_index =
        (((List.replicate 9 (0 : Nat)).length +
            4 * (min (1 + 1) (min (4 * ([⟨1, 2, 3, 4⟩] : List RawRect).length) 128) / 4) : Nat) : Int)) ∧
    (min (1 + 1) (min (4 * ([⟨1, 2, 3, 4⟩] : List RawRect).length) 128) % 4 = 3 →
      (process_next_frame 1 (List.replicate 9 0 ++ frameBytes [⟨1, 2, 3, 4⟩] ++ 254 :: []) 1
          (((List.replicate 9 (0 : Nat)).length : Nat) : Int)
          init_render_queue).last_data_index =
        (((List.replicate 9 (0 : Nat)).length +
            min (1 + 1) (min (4 * ([⟨1, 2, 3, 4⟩] : List RawRect).length) 128) : Nat) : Int))) :=
  ⟨by decide,
   c3_rollback_on_interruption 1 (List.replicate 9 0) [⟨1, 2, 3, 4⟩] 254 [] 1
     (by decide) (Or.inl rfl)⟩

/-! ## Flushing the queue -/

theorem flushDrawCalc_decRect (c : Nat) (r : RawRect) :
    flushDrawCalc c (decRect c r) = POp c r := by
  simp [flushDrawCalc, decRect, POp, livePathOp, storeComp, liveDrawCalc]

theorem flushQueue_map_decRect (c : Nat) (L : List RawRect) (R : List Vid84Rect) :
    flushQueue c (L.map (decRect c) ++ R) =
      (L.map fun r => Ev.flushFill (POp c r)) ++ flushQueue c R := by
  induction L with
  | nil => simp
  | cons r L ih =>
    have hx : (decRect c r).x ≠ -1 := by
      have : (0 : Int) ≤ (r.x : Int) * (c : Int) := by positivity
      simp only [decRect]
      omega
    simp only [List.map_cons, List.cons_append, flushQueue, if_pos hx,
      flushDrawCalc_decRect]
    rw [show (List.map (decRect c) L).append R = List.map (decRect c) L ++ R from rfl,
      ih]

theorem flushQueue_replicate_empty (c n : Nat) :
    flushQueue c (List.replicate n emptyRect) = [] := by
  cases n with
  | zero => rfl
  | succ n => simp [List.replicate_succ, flushQueue, emptyRect]

theorem flushQueue_decQueue (c : Nat) (g : List RawRect) (p : Nat) :
    flushQueue c (decQueue c g p) =
      (g.take p).map fun r => Ev.flushFill (POp c r) := by
  rw [decQueue_eq, flushQueue_map_decRect, flushQueue_replicate_empty,
    List.append_nil]

/-! ## Single steps of the live decode loop -/

theorem init_render_queue_head : (init_render_queue.getD 0 emptyRect).x = -1 := rfl

theorem liveLoop_step_marker (c : Nat) (str : List Nat) (fuel : Nat) (idx : Int)
    (rdi : Nat) (rect : Vid84Rect) (q : List Vid84Rect)
    (hq : (q.getD 0 emptyRect).x = -1)
    (h : byteAtI str idx = 255 ∨ byteAtI str idx = 254) :
    liveLoop c str (fuel + 1) idx rdi rect q =
      some ⟨[], idx, byteAtI str idx, q⟩ := by
  simp only [liveLoop]
  rw [if_neg (not_not_intro hq), if_pos h]

theorem liveLoop_step_byte (c : Nat) (str : List Nat) (fuel : Nat) (idx : Int)
    (rdi : Nat) (rect : Vid84Rect) (q : List Vid84Rect)
    (hq : (q.getD 0 emptyRect).x = -1)
    (h254 : byteAtI str idx ≠ 254) (h255 : byteAtI str idx ≠ 255)
    (hrdi : rdi < 3) :
    liveLoop c str (fuel + 1) idx rdi rect q =
      liveLoop c str fuel (idx + 1) (rdi + 1)
        (storeComp rect rdi ((byteAtI str idx : Int) * (c : Int))) q := by
  simp only [liveLoop]
  rw [if_neg (not_not_intro hq), if_neg (not_or.mpr ⟨h255, h254⟩),
    if_neg (show ¬(rdi + 1 ≥ 4) by omega)]
  cases liveLoop c str fuel (idx + 1) (rdi + 1)
      (storeComp rect rdi ((byteAtI str idx : Int) * (c : Int))) q with
  | none => rfl
  | some o => rfl

theorem liveLoop_step_draw (c : Nat) (str : List Nat) (fuel : Nat) (idx : Int)
    (rect : Vid84Rect) (q : List Vid84Rect)
    (hq : (q.getD 0 emptyRect).x = -1)
    (h254 : byteAtI str idx ≠ 254) (h255 : byteAtI str idx ≠ 255) :
    liveLoop c str (fuel + 1) idx 3 rect q =
      (liveLoop c str fuel (idx + 1) 0
          { storeComp rect 3 ((byteAtI str idx : Int) * (c : Int)) with
              x := (storeComp rect 3 ((byteAtI str idx : Int) * (c : Int))).x + 40,
              x2 := (storeComp rect 3 ((byteAtI str idx : Int) * (c : Int))).x2 + 40 } q).map
        fun o =>
          { o with events :=
              Ev.liveFill (liveDrawCalc c
                { storeComp rect 3 ((byteAtI str idx : Int) * (c : Int)) with
                    x := (storeComp rect 3 ((byteAtI str idx : Int) * (c : Int))).x + 40,
                    x2 := (storeComp rect 3 ((byteAtI str idx : Int) * (c : Int))).x2 + 40 }) ::
                o.events } := by
  simp only [liveLoop]
  rw [if_neg (not_not_intro hq), if_neg (not_or.mpr ⟨h255, h254⟩),
    if_pos (show (3 : Nat) + 1 ≥ 4 by omega)]
  cases liveLoop c str fuel (idx + 1) 0
      { storeComp rect 3 ((byteAtI str idx : Int) * (c : Int)) with
          x := (storeComp rect 3 ((byteAtI str idx : Int) * (c : Int))).x + 40,
          x2 := (storeComp rect 3 ((byteAtI str idx : Int) * (c : Int))).x2 + 40 } q with
  | none => rfl
  | some o => rfl

theorem liveLoop_flush_split (c : Nat) (str : List Nat) (fuel : Nat) (idx : Int)
    (rdi : Nat) (rect : Vid84Rect) (q : List Vid84Rect)
    (hq : (q.getD 0 emptyRect).x ≠ -1) :
    liveLoop c str (fuel + 1) idx rdi rect q =
      (liveLoop c str (fuel + 1) idx rdi rect init_render_queue).map
        fun o => { o with events := flushQueue c q ++ o.events } := by
  simp only [liveLoop]
  rw [if_pos hq, if_neg (not_not_intro init_render_queue_head)]
  simp only [process_rectangle_queue]
  by_cases hmk : byteAtI str idx = 255 ∨ byteAtI str idx = 254
  · rw [if_pos hmk, if_pos hmk]
    simp
  · rw [if_neg hmk, if_neg hmk]
    by_cases hr : rdi + 1 ≥ 4
    · rw [if_pos hr, if_pos hr]
      cases liveLoop c str fuel (idx + 1) 0
          { storeComp rect rdi ((byteAtI str idx : Int) * (c : Int)) with
              x := (storeComp rect rdi ((byteAtI str idx : Int) * (c : Int))).x + 40,
              x2 := (storeComp rect rdi ((byteAtI str idx : Int) * (c : Int))).x2 + 40 }
          init_render_queue with
      | none => rfl
      | some o => simp
    · rw [if_neg hr, if_neg hr]
      cases liveLoop c str fuel (idx + 1) (rdi + 1)
          (storeComp rect rdi ((byteAtI str idx : Int) * (c : Int)))
          init_render_queue with
      | none => rfl
      | some o => simp

/-! ## The live decode loop over a whole frame -/

theorem byteAtI_rect_head (A : List Nat) (r : RawRect) (rest : List Nat)
    (j : Nat) (hj : j < 4) :
    byteAtI ((A ++ rectBytes r) ++ rest) ((A.length + j : Nat) : Int) =
      rectComp r j := by
  unfold byteAtI
  rw [Int.toNat_natCast, List.append_assoc, getD_append_add,
      getD_append_lt _ _ _ _ (by rw [length_rectBytes]; omega)]
  interval_cases j <;> rfl

/-- One frame of live decoding from an empty-first-slot queue: each
record is drawn in order, the loop stops on the trailing marker without
consuming it, and the queue is untouched. -/
theorem liveLoop_frame (c : Nat) (mrk : Nat) (hmk : mrk = 254 ∨ mrk = 255) :
    ∀ (g : List RawRect) (A B : List Nat) (k : Nat) (r0 : Vid84Rect)
      (q : List Vid84Rect),
      (∀ r ∈ g, GoodRect r) →
      (q.getD 0 emptyRect).x = -1 →
      liveLoop c (A ++ frameBytes g ++ mrk :: B) (4 * g.length + 1 + k)
          ((A.length : Nat) : Int) 0 r0 q =
        some ⟨g.map (fun r => Ev.liveFill (POp c r)),
              ((A.length + 4 * g.length : Nat) : Int), mrk, q⟩ := by
  intro g
  induction g with
  | nil =>
    intro A B k r0 q hg hq
    have hm : byteAtI (A ++ frameBytes [] ++ mrk :: B) ((A.length : Nat) : Int) = mrk := by
      simpa using byteAt_at_marker A [] mrk B
    rw [show 4 * ([] : List RawRect).length + 1 + k = k + 1 by simp; omega]
    rw [liveLoop_step_marker c _ k _ 0 r0 q hq (by rw [hm]; tauto)]
    rw [hm]
    simp
  | cons r g ih =>
    intro A B k r0 q hg hq
    have hgr : GoodRect r := hg r (by simp)
    have hgg : ∀ x ∈ g, GoodRect x := fun x hx => hg x (by simp [hx])
    have hstr : A ++ frameBytes (r :: g) ++ mrk :: B =
        (A ++ rectBytes r) ++ frameBytes g ++ mrk :: B := by
      rw [frameBytes_cons]
      simp [List.append_assoc]
    rw [hstr]
    have hc : ∀ j, rectComp r j < 254 := goodRect_comp r hgr
    have hb : ∀ j, j < 4 →
        byteAtI ((A ++ rectBytes r) ++ frameBytes g ++ mrk :: B)
          ((A.length + j : Nat) : Int) = rectComp r j := by
      intro j hj
      rw [show (A ++ rectBytes r) ++ frameBytes g ++ mrk :: B =
            (A ++ rectBytes r) ++ (frameBytes g ++ mrk :: B) by
          simp [List.append_assoc]]
      exact byteAtI_rect_head A r _ j hj
    have hb0 : byteAtI ((A ++ rectBytes r) ++ frameBytes g ++ mrk :: B)
        ((A.length : Nat) : Int) = rectComp r 0 := by
      simpa using hb 0 (by omega)
    rw [show 4 * (r :: g).length + 1 + k = (4 * g.length + k + 4) + 1 by
          simp [List.length_cons]; ring]
    rw [liveLoop_step_byte c _ _ _ 0 r0 q hq (by rw [hb0]; have := hc 0; omega)
          (by rw [hb0]; have := hc 0; omega) (by omega), hb0]
    rw [show ((A.length : Nat) : Int) + 1 = ((A.length + 1 : Nat) : Int) by push_cast; ring]
    rw [show 4 * g.length + k + 4 = (4 * g.length + k + 3) + 1 by ring]
    rw [liveLoop_step_byte c _ _ _ 1 _ q hq
          (by rw [hb 1 (by omega)]; have := hc 1; omega)
          (by rw [hb 1 (by omega)]; have := hc 1; omega) (by omega), hb 1 (by omega)]
    rw [show ((A.length + 1 : Nat) : Int) + 1 = ((A.length + 2 : Nat) : Int) by
          push_cast; ring]
    rw [show 4 * g.length + k + 3 = (4 * g.length + k + 2) + 1 by ring]
    rw [liveLoop_step_byte c _ _ _ 2 _ q hq
          (by rw [hb 2 (by omega)]; have := hc 2; omega)
          (by rw [hb 2 (by omega)]; have := hc 2; omega) (by omega), hb 2 (by omega)]
    rw [show ((A.length + 2 : Nat) : Int) + 1 = ((A.length + 3 : Nat) : Int) by
          push_cast; ring]
    rw [show 4 * g.length + k + 2 = (4 * g.length + k + 1) + 1 by ring]
    rw [liveLoop_step_draw c _ _ _ _ q hq
          (by rw [hb 3 (by omega)]; have := hc 3; omega)
          (by rw [hb 3 (by omega)]; have := hc 3; omega), hb 3 (by omega)]
    rw [show ((A.length + 3 : Nat) : Int) + 1 = (((A ++ rectBytes r).length : Nat) : Int) by
          simp [List.length_append, length_rectBytes]; ring]
    rw [show 4 * g.length + k + 1 = 4 * g.length + 1 + k by ring]
    rw [ih (A ++ rectBytes r) B k _ q hgg hq]
    have h4 : (A ++ rectBytes r).length + 4 * g.length =
        A.length + 4 * (r :: g).length := by
      simp [List.length_append, length_rectBytes, List.length_cons]
      ring
    simp only [Option.map_some', List.map_cons, LiveOut.mk.injEq, h4]
    rfl

/-- One full frame cycle of the inner loop: with the first `p` records
of frame `f` prefetched (queue `decQueue c f p`) and the cursor right
after them, the loop first flushes those `p` records, then live-decodes
and draws the remaining records, stops at the trailing marker, and
leaves the queue reset. -/
theorem liveLoop_full_cycle (c : Nat) (f : List RawRect) (p : Nat) (mrk : Nat)
    (hmk : mrk = 254 ∨ mrk = 255) (A B : List Nat) (k : Nat) (r0 : Vid84Rect)
    (hg : ∀ r ∈ f, GoodRect r) (hp : p ≤ f.length) :
    liveLoop c (A ++ frameBytes f ++ mrk :: B) (4 * (f.length - p) + 1 + k)
        ((A.length + 4 * p : Nat) : Int) 0 r0 (decQueue c f p) =
      some ⟨((f.take p).map fun r => Ev.flushFill (POp c r)) ++
              ((f.drop p).map fun r => Ev.liveFill (POp c r)),
            ((A.length + 4 * f.length : Nat) : Int), mrk, init_render_queue⟩ := by
  have hsplit : A ++ frameBytes f ++ mrk :: B =
      (A ++ frameBytes (f.take p)) ++ frameBytes (f.drop p) ++ mrk :: B := by
    conv_lhs => rw [show f = f.take p ++ f.drop p by rw [List.take_append_drop]]
    rw [frameBytes_append]
    simp [List.append_assoc]
  have hlen : (A ++ frameBytes (f.take p)).length = A.length + 4 * p := by
    rw [List.length_append, length_frameBytes, List.length_take]
    omega
  have hgd : ∀ r ∈ f.drop p, GoodRect r := fun r hr =>
    hg r (List.drop_subset p f hr)
  have hdl : (f.drop p).length = f.length - p := by
    rw [List.length_drop]
  by_cases hp0 : p = 0
  · subst hp0
    have hq0 : decQueue c f 0 = init_render_queue := midQueue_zero_zero c f
    rw [hq0, hsplit]
    have := liveLoop_frame c mrk hmk (f.drop 0) (A ++ frameBytes (f.take 0)) B k r0
      init_render_queue hgd init_render_queue_head
    rw [hdl] at this
    rw [show ((A.length + 4 * 0 : Nat) : Int) = (((A ++ frameBytes (f.take 0)).length : Nat) : Int) by
          rw [hlen]]
    rw [this]
    simp [hlen, hdl, frameBytes_nil]
  · -- the first iteration flushes the queued prefix
    have hqx : ((decQueue c f p).getD 0 emptyRect).x ≠ -1 := by
      obtain ⟨r1, f2, hf⟩ : ∃ r1 f2, f = r1 :: f2 := by
        cases f with
        | nil => simp at hp; omega
        | cons a b => exact ⟨a, b, rfl⟩
      subst hf
      rw [decQueue_eq]
      rw [show (r1 :: f2).take p = r1 :: f2.take (p - 1) by
            cases p with
            | zero => omega
            | succ n => simp]
      simp only [List.map_cons, List.cons_append, List.getD_cons_zero]
      have : (0 : Int) ≤ (r1.x : Int) * (c : Int) := by positivity
      simp only [decRect]
      omega
    obtain ⟨k2, hk2⟩ : ∃ k2, 4 * (f.length - p) + 1 + k = k2 + 1 := ⟨4 * (f.length - p) + k, by omega⟩
    rw [hk2, liveLoop_flush_split c _ k2 _ 0 r0 (decQueue c f p) hqx, ← hk2]
    rw [hsplit]
    have := liveLoop_frame c mrk hmk (f.drop p) (A ++ frameBytes (f.take p)) B k r0
      init_render_queue hgd init_render_queue_head
    rw [hdl] at this
    rw [show ((A.length + 4 * p : Nat) : Int) = (((A ++ frameBytes (f.take p)).length : Nat) : Int) by
          rw [hlen]]
    rw [this]
    simp only [Option.map_some', flushQueue_decQueue]
    rw [show (A ++ frameBytes (f.take p)).length + 4 * (f.length - p) =
          A.length + 4 * f.length by rw [hlen]; omega]

/-! ## Claim C5: queue capacity -/

/-- C5: a prefetch pass with an unbounded idle budget (the expiry check
index at least 127) over a frame of more than 32 records stores exactly
32 records (`rect_queue_index = 32`, all 32 slots the first 32 decoded
records), leaves the cursor at the first byte of the 33rd record, and
the following frame cycle flushes those 32 and draws the 33rd and later
records through the live decoder (they are never queued: the queue is
reset and not refilled during the cycle). -/
theorem c5_queue_capacity (c : Nat) (A : List Nat) (f : List RawRect) (mrk : Nat)
    (B : List Nat) (N : Nat) (k : Nat) (r0 : Vid84Rect)
    (hg : ∀ r ∈ f, GoodRect r) (hmk : mrk = 254 ∨ mrk = 255)
    (hlen : 32 < f.length) (hN : 127 ≤ N) :
    (process_next_frame c (A ++ frameBytes f ++ mrk :: B) N
        ((A.length : Nat) : Int) init_render_queue).rect_queue_index = 32 ∧
    (process_next_frame c (A ++ frameBytes f ++ mrk :: B) N
        ((A.length : Nat) : Int) init_render_queue).queue =
      (f.take 32).map (decRect c) ∧
    (process_next_frame c (A ++ frameBytes f ++ mrk :: B) N
        ((A.length : Nat) : Int) init_render_queue).last_data_index =
      ((A.length + 4 * 32 : Nat) : Int) ∧
    liveLoop c (A ++ frameBytes f ++ mrk :: B) (4 * (f.length - 32) + 1 + k)
        ((A.length + 4 * 32 : Nat) : Int) 0 r0
        (process_next_frame c (A ++ frameBytes f ++ mrk :: B) N
          ((A.length : Nat) : Int) init_render_queue).queue =
      some ⟨((f.take 32).map fun r => Ev.flushFill (POp c r)) ++
              ((f.drop 32).map fun r => Ev.liveFill (POp c r)),
            ((A.length + 4 * f.length : Nat) : Int), mrk, init_render_queue⟩ := by
  have hmin : min (N + 1) (min (4 * f.length) 128) = 128 := by omega
  have heq := process_next_frame_aligned c A f mrk B N hg hmk (by rw [hmin])
  rw [hmin] at heq
  rw [heq]
  have h32 : (128 : Nat) / 4 = 32 := by norm_num
  have hq : decQueue c f (128 / 4) = (f.take 32).map (decRect c) := by
    rw [h32, decQueue_eq]
    simp
  refine ⟨by rw [h32], hq, by norm_num, ?_⟩
  rw [hq, show (f.take 32).map (decRect c) = decQueue c f 32 by rw [decQueue_eq]; simp]
  exact liveLoop_full_cycle c f 32 mrk hmk A B k r0 hg (by omega)

/-- C5 witness at a concrete 33-record frame. -/
theorem c5_queue_capacity_witness :
    ((∀ r ∈ frame33, GoodRect r) ∧ 32 < frame33.length ∧ 127 ≤ 127) ∧
    ((process_next_frame 2 (hdr9 ++ frameBytes frame33 ++ 254 :: []) 127
        ((hdr9.length : Nat) : Int) init_render_queue).rect_queue_index = 32 ∧
    (process_next_frame 2 (hdr9 ++ frameBytes frame33 ++ 254 :: []) 127
        ((hdr9.length : Nat) : Int) init_render_queue).queue =
      (frame33.take 32).map (decRect 2) ∧
    (process_next_frame 2 (hdr9 ++ frameBytes frame33 ++ 254 :: []) 127
        ((hdr9.length : Nat) : Int) init_render_queue).last_data_index =
      ((hdr9.length + 4 * 32 : Nat) : Int) ∧
    liveLoop 2 (hdr9 ++ frameBytes frame33 ++ 254 :: []) (4 * (frame33.length - 32) + 1 + 0)
        ((hdr9.length + 4 * 32 : Nat) : Int) 0 ⟨0, 0, 0, 0⟩
        (process_next_frame 2 (hdr9 ++ frameBytes frame33 ++ 254 :: []) 127
          ((hdr9.length : Nat) : Int) init_render_queue).queue =
      some ⟨((frame33.take 32).map fun r => Ev.flushFill (POp 2 r)) ++
              ((frame33.drop 32).map fun r => Ev.liveFill (POp 2 r)),
            ((hdr9.length + 4 * frame33.length : Nat) : Int), 254, init_render_queue⟩) :=
  ⟨⟨by decide, by decide, by decide⟩,
   c5_queue_capacity 2 hdr9 frame33 254 [] 127 0 ⟨0, 0, 0, 0⟩
     (by decide) (Or.inl rfl) (by decide) (by decide)⟩

/-! ## Trace observation lemmas -/

theorem fillsOf_append (a b : List Ev) : fillsOf (a ++ b) = fillsOf a ++ fillsOf b := by
  simp [fillsOf, List.filterMap_append]

theorem fillsOf_frameStart (es : List Ev) :
    fillsOf (Ev.frameStart :: es) = fillsOf es := rfl

theorem fillsOf_pend (p : Nat) (es : List Ev) :
    fillsOf (Ev.prefetchEnd p :: es) = fillsOf es := rfl

theorem fillsOf_flushMap (c : Nat) (L : List RawRect) :
    fillsOf (L.map fun r => Ev.flushFill (POp c r)) = L.map (POp c) := by
  induction L with
  | nil => rfl
  | cons r L ih => simp [fillsOf, List.filterMap_cons] at ih ⊢; exact ih

theorem fillsOf_liveMap (c : Nat) (L : List RawRect) :
    fillsOf (L.map fun r => Ev.liveFill (POp c r)) = L.map (POp c) := by
  induction L with
  | nil => rfl
  | cons r L ih => simp [fillsOf, List.filterMap_cons] at ih ⊢; exact ih

theorem noFlush_liveMap_of (c : Nat) (L : List RawRect) (es : List Ev)
    (h : ∀ b, noFlushAfterLive es b = true) :
    ∀ b, noFlushAfterLive ((L.map fun r => Ev.liveFill (POp c r)) ++ es) b = true := by
  induction L with
  | nil => simpa using h
  | cons r L ih => intro b; simpa [noFlushAfterLive] using ih true

theorem noFlush_flushMap_of (c : Nat) (L : List RawRect) (es : List Ev)
    (h : noFlushAfterLive es false = true) :
    noFlushAfterLive ((L.map fun r => Ev.flushFill (POp c r)) ++ es) false = true := by
  induction L with
  | nil => simpa using h
  | cons r L ih => simpa [noFlushAfterLive] using ih

theorem noFlush_pend_of (p : Nat) (es : List Ev)
    (h : ∀ b, noFlushAfterLive es b = true) :
    ∀ b, noFlushAfterLive (Ev.prefetchEnd p :: es) b = true := by
  intro b
  simpa [noFlushAfterLive] using h b

/-! ## Whole-playback correctness under aligned interruptions -/

theorem length_bodyBytes_single (f : List RawRect) :
    (bodyBytes [f]).length = 4 * f.length + 1 := by
  simp [bodyBytes, length_frameBytes]

theorem length_bodyBytes_cons (f g : List RawRect) (rest : List (List RawRect)) :
    (bodyBytes (f :: g :: rest)).length =
      4 * f.length + 1 + (bodyBytes (g :: rest)).length := by
  simp [bodyBytes, length_frameBytes]
  omega

theorem bodyBytes_cons_shape (g : List RawRect) (rest : List (List RawRect)) :
    ∃ mrk2 B2, bodyBytes (g :: rest) = frameBytes g ++ mrk2 :: B2 ∧
      (mrk2 = 254 ∨ mrk2 = 255) := by
  cases rest with
  | nil => exact ⟨254, [], by simp [bodyBytes], Or.inl rfl⟩
  | cons g2 r2 => exact ⟨255, bodyBytes (g2 :: r2), by simp [bodyBytes], Or.inr rfl⟩

theorem fills_cycle (c : Nat) (f : List RawRect) (p : Nat) (es : List Ev) :
    fillsOf ((Ev.frameStart ::
        (((f.take p).map fun r => Ev.flushFill (POp c r)) ++
         ((f.drop p).map fun r => Ev.liveFill (POp c r)))) ++ es) =
      f.map (POp c) ++ fillsOf es := by
  rw [List.cons_append, fillsOf_frameStart, List.append_assoc, fillsOf_append,
    fillsOf_append, fillsOf_flushMap, fillsOf_liveMap, ← List.append_assoc,
    ← List.map_append, List.take_append_drop]

theorem fills_cycle_pend (c : Nat) (f : List RawRect) (p q : Nat) (es : List Ev) :
    fillsOf ((Ev.frameStart ::
        ((((f.take p).map fun r => Ev.flushFill (POp c r)) ++
          ((f.drop p).map fun r => Ev.liveFill (POp c r))) ++ [Ev.prefetchEnd q])) ++ es) =
      f.map (POp c) ++ fillsOf es := by
  rw [List.cons_append, fillsOf_frameStart, List.append_assoc, List.append_assoc,
    fillsOf_append, fillsOf_append, fillsOf_flushMap, fillsOf_liveMap]
  rw [show ([Ev.prefetchEnd q] : List Ev) ++ es = Ev.prefetchEnd q :: es from rfl,
    fillsOf_pend, ← List.append_assoc, ← List.map_append, List.take_append_drop]

theorem noFlush_cycle (c : Nat) (f : List RawRect) (p : Nat) (es : List Ev)
    (h : ∀ b, noFlushAfterLive es b = true) :
    ∀ b, noFlushAfterLive ((Ev.frameStart ::
        (((f.take p).map fun r => Ev.flushFill (POp c r)) ++
         ((f.drop p).map fun r => Ev.liveFill (POp c r)))) ++ es) b = true := by
  intro b
  rw [List.cons_append, List.append_assoc]
  show noFlushAfterLive (_ ++ _) false = true
  exact noFlush_flushMap_of c _ _ (noFlush_liveMap_of c _ _ h false)

theorem noFlush_cycle_pend (c : Nat) (f : List RawRect) (p q : Nat) (es : List Ev)
    (h : ∀ b, noFlushAfterLive es b = true) :
    ∀ b, noFlushAfterLive ((Ev.frameStart ::
        ((((f.take p).map fun r => Ev.flushFill (POp c r)) ++
          ((f.drop p).map fun r => Ev.liveFill (POp c r))) ++ [Ev.prefetchEnd q])) ++ es) b = true := by
  intro b
  rw [List.cons_append, List.append_assoc, List.append_assoc]
  rw [show ([Ev.prefetchEnd q] : List Ev) ++ es = Ev.prefetchEnd q :: es from rfl]
  show noFlushAfterLive (_ ++ _) false = true
  exact noFlush_flushMap_of c _ _
    (noFlush_liveMap_of c _ _ (noFlush_pend_of q _ h) false)

theorem ite_255_254 {α : Sort _} (a b : α) :
    (if (255 : Nat) = 254 then a else b) = b := if_neg (by norm_num)

/-- Main simulation lemma for `begin_decode`.  Invariant at the top of a
cycle: the remaining stream holds frames `f :: rest`, the first `p`
records of `f` are already in the queue, and the cursor sits right after
them.  If every prefetch pass the budget oracle triggers expires only on
a record boundary, the run terminates after exactly one cycle per frame,
draws precisely the streams' records in stream order, never draws a
flushed rectangle after a live one within a frame, and leaves the cursor
on the final `0xFE` byte. -/
theorem begin_decode_spec (c : Nat) (budget : Nat → Option Nat) :
    ∀ (rest : List (List RawRect)) (f : List RawRect) (A : List Nat) (p : Nat)
      (fuel frameNo : Nat),
      (∀ fr ∈ f :: rest, ∀ r ∈ fr, GoodRect r) →
      p ≤ f.length → p ≤ 32 →
      rest.length < fuel →
      alignedBudget budget frameNo (f :: rest) →
      ∃ o, begin_decode c (A ++ bodyBytes (f :: rest)) budget fuel frameNo
              ((A.length + 4 * p : Nat) : Int) (decQueue c f p) = some o ∧
        fillsOf o.events = ((f :: rest).flatten).map (POp c) ∧
        (∀ b, noFlushAfterLive o.events b = true) ∧
        o.frames = rest.length + 1 ∧
        o.idx = ((A.length + (bodyBytes (f :: rest)).length - 1 : Nat) : Int) := by
  intro rest
  induction rest with
  | nil =>
    intro f A p fuel frameNo hg hp hp32 hfuel hbud
    obtain ⟨fuel2, rfl⟩ : ∃ fuel2, fuel = fuel2 + 1 := ⟨fuel - 1, by omega⟩
    have hstr : A ++ bodyBytes [f] = A ++ frameBytes f ++ 254 :: [] := by
      simp [bodyBytes, List.append_assoc]
    rw [hstr]
    obtain ⟨k, hk⟩ : ∃ k, (A ++ frameBytes f ++ 254 :: []).length + 1 =
        4 * (f.length - p) + 1 + k := by
      refine ⟨(A ++ frameBytes f ++ 254 :: []).length + 1 - (4 * (f.length - p) + 1), ?_⟩
      have h1 : 4 * (f.length - p) ≤ (A ++ frameBytes f ++ 254 :: []).length := by
        simp [List.length_append, length_frameBytes]
        omega
      omega
    simp only [begin_decode]
    rw [hk, liveLoop_full_cycle c f p 254 (Or.inl rfl) A [] k ⟨0, 0, 0, 0⟩
          (fun r hr => hg f (by simp) r hr) hp]
    cases hbu : budget frameNo with
    | none =>
      refine ⟨_, rfl, ?_, ?_, rfl, ?_⟩
      · rw [fillsOf_frameStart, fillsOf_append, fillsOf_flushMap, fillsOf_liveMap,
          ← List.map_append, List.take_append_drop]
        simp
      · intro b
        show noFlushAfterLive (_ ++ _) false = true
        refine noFlush_flushMap_of c _ _ ?_
        have := noFlush_liveMap_of c (f.drop p) [] (fun _ => rfl)
        simpa using this false
      · rw [length_bodyBytes_single]
        norm_num
    | some N =>
      refine ⟨_, rfl, ?_, ?_, rfl, ?_⟩
      · rw [fillsOf_frameStart, fillsOf_append, fillsOf_flushMap, fillsOf_liveMap,
          ← List.map_append, List.take_append_drop]
        simp
      · intro b
        show noFlushAfterLive (_ ++ _) false = true
        refine noFlush_flushMap_of c _ _ ?_
        have := noFlush_liveMap_of c (f.drop p) [] (fun _ => rfl)
        simpa using this false
      · rw [length_bodyBytes_single]
        norm_num
  | cons g rest2 ih =>
    intro f A p fuel frameNo hg hp hp32 hfuel hbud
    obtain ⟨fuel2, rfl⟩ : ∃ fuel2, fuel = fuel2 + 1 := ⟨fuel - 1, by omega⟩
    have hstr : A ++ bodyBytes (f :: g :: rest2) =
        A ++ frameBytes f ++ 255 :: bodyBytes (g :: rest2) := by
      simp [bodyBytes, List.append_assoc]
    rw [hstr]
    obtain ⟨k, hk⟩ : ∃ k, (A ++ frameBytes f ++ 255 :: bodyBytes (g :: rest2)).length + 1 =
        4 * (f.length - p) + 1 + k := by
      refine ⟨(A ++ frameBytes f ++ 255 :: bodyBytes (g :: rest2)).length + 1 -
        (4 * (f.length - p) + 1), ?_⟩
      have h1 : 4 * (f.length - p) ≤
          (A ++ frameBytes f ++ 255 :: bodyBytes (g :: rest2)).length := by
        simp [List.length_append, length_frameBytes]
        omega
      omega
    have hfuel2 : rest2.length < fuel2 := by
      simp at hfuel
      omega
    simp only [begin_decode]
    rw [hk, liveLoop_full_cycle c f p 255 (Or.inr rfl) A (bodyBytes (g :: rest2)) k
          ⟨0, 0, 0, 0⟩ (fun r hr => hg f (by simp) r hr) hp]
    have hgg : ∀ fr ∈ g :: rest2, ∀ r ∈ fr, GoodRect r := fun fr hfr =>
      hg fr (by simp [hfr])
    obtain ⟨hb1, hb2⟩ := hbud
    have hidxp : ((A.length + 4 * f.length : Nat) : Int) + 1 =
        (((A ++ frameBytes f ++ [255]).length + 4 * 0 : Nat) : Int) := by
      simp [List.length_append, length_frameBytes]
      ring
    have hstr2 : A ++ frameBytes f ++ 255 :: bodyBytes (g :: rest2) =
        (A ++ frameBytes f ++ [255]) ++ bodyBytes (g :: rest2) := by
      simp [List.append_assoc]
    have hA2 : (A ++ frameBytes f ++ [255]).length = A.length + 4 * f.length + 1 := by
      simp [List.length_append, length_frameBytes]
      omega
    cases hbu : budget frameNo with
    | none =>
      have hqinit : (init_render_queue : List Vid84Rect) = decQueue c g 0 :=
        (midQueue_zero_zero c g).symm
      simp only [ite_255_254]
      rw [hidxp, hqinit, hstr2]
      obtain ⟨o2, ho2, hfills2, hnf2, hfr2, hidx2⟩ :=
        ih g (A ++ frameBytes f ++ [255]) 0 fuel2 (frameNo + 1) hgg
          (by omega) (by omega) hfuel2 hb2
      rw [ho2]
      refine ⟨_, rfl, ?_, ?_, by simp [hfr2], ?_⟩
      · exact (fills_cycle c f p o2.events).trans
          (by rw [hfills2]; simp [List.map_append])
      · exact noFlush_cycle c f p o2.events hnf2
      · rw [hidx2, hA2, length_bodyBytes_cons]
        congr 1
        omega
    | some N =>
      simp only [ite_255_254]
      obtain ⟨mrk2, B2, hbod, hmrk2⟩ := bodyBytes_cons_shape g rest2
      have halign := hb1 N hbu
      have hstr3 : A ++ frameBytes f ++ 255 :: bodyBytes (g :: rest2) =
          (A ++ frameBytes f ++ [255]) ++ frameBytes g ++ mrk2 :: B2 := by
        rw [hbod]
        simp [List.append_assoc]
      have hidxp3 : ((A.length + 4 * f.length : Nat) : Int) + 1 =
          (((A ++ frameBytes f ++ [255]).length : Nat) : Int) := by
        rw [hA2]
        push_cast
        ring
      rw [hidxp3, hstr3]
      rw [process_next_frame_aligned c (A ++ frameBytes f ++ [255]) g mrk2 B2 N
            (fun r hr => hgg g (by simp) r hr) hmrk2 halign]
      dsimp only
      rw [← hstr3, hstr2]
      obtain ⟨o2, ho2, hfills2, hnf2, hfr2, hidx2⟩ :=
        ih g (A ++ frameBytes f ++ [255])
          (min (N + 1) (min (4 * g.length) 128) / 4) fuel2 (frameNo + 1) hgg
          (by omega) (by omega) hfuel2 hb2
      have hc4 : 4 * (min (N + 1) (min (4 * g.length) 128) / 4) =
          min (N + 1) (min (4 * g.length) 128) := by omega
      rw [hc4] at ho2
      rw [ho2]
      refine ⟨_, rfl, ?_, ?_, by simp [hfr2], ?_⟩
      · exact (fills_cycle_pend c f p 0 o2.events).trans
          (by rw [hfills2]; simp [List.map_append])
      · exact noFlush_cycle_pend c f p 0 o2.events hnf2
      · rw [hidx2, hA2, length_bodyBytes_cons]
        congr 1
        omega

/-- Whole-pipeline correctness under aligned interruptions: pre-roll
from offset 9, then one `begin_decode` cycle per frame. -/
theorem playback_spec (c : Nat) (H : List Nat) (f : List RawRect)
    (rest : List (List RawRect)) (preN : Nat) (budget : Nat → Option Nat)
    (fuel : Nat) (hH : H.length = 9)
    (hg : ∀ fr ∈ f :: rest, ∀ r ∈ fr, GoodRect r)
    (hpre : min (preN + 1) (min (4 * f.length) 128) % 4 = 0)
    (hbud : alignedBudget budget 0 (f :: rest))
    (hfuel : rest.length < fuel) :
    ∃ o, playback c (H ++ bodyBytes (f :: rest)) preN budget fuel = some o ∧
      fillsOf o.events = ((f :: rest).flatten).map (POp c) ∧
      noFlushAfterLive o.events false = true ∧
      o.frames = rest.length + 1 ∧
      o.idx = ((H.length + (bodyBytes (f :: rest)).length - 1 : Nat) : Int) := by
  obtain ⟨mrk, B, hbod, hmrk⟩ := bodyBytes_cons_shape f rest
  have hstr : H ++ bodyBytes (f :: rest) = H ++ frameBytes f ++ mrk :: B := by
    rw [hbod]
    simp [List.append_assoc]
  obtain ⟨o, ho, hfills, hnf, hfr, hidx⟩ :=
    begin_decode_spec c budget rest f H
      (min (preN + 1) (min (4 * f.length) 128) / 4) fuel 0 hg
      (by omega) (by omega) hfuel hbud
  have hc4 : 4 * (min (preN + 1) (min (4 * f.length) 128) / 4) =
      min (preN + 1) (min (4 * f.length) 128) := by omega
  rw [hc4] at ho
  unfold playback prerender_first_frame
  rw [show (9 : Int) = ((H.length : Nat) : Int) by rw [hH]; norm_num]
  rw [hstr, process_next_frame_aligned c H f mrk B preN (hg f (by simp)) hmrk hpre]
  dsimp only
  rw [← hstr, ho]
  exact ⟨_, rfl, by rw [fillsOf_pend]; exact hfills,
    by exact noFlush_pend_of 0 _ hnf false, hfr, hidx⟩

/-! ## Claim C1: draw ordering -/

/-- C1 (counterexample): drawn rectangles do not always match the
stream's records in order.  With the pre-roll budget expiring after one
parser iteration (a permitted interleaving), the single-record stream
produces a spurious flush of a partially filled queue slot followed by
the live redraw — the fill trace is not the stream's record list. -/
theorem c1_counterexample_spurious_draw :
    (playback 1 (hdr9 ++ bodyBytes [[⟨1, 2, 3, 4⟩]]) 0 (fun _ => none) 1).map
        (fun o => fillsOf o.events) ≠
      some ((([[⟨1, 2, 3, 4⟩]] : List (List RawRect)).flatten).map (POp 1)) := by
  decide

/-- C1 (amended): for every well-formed stream and every interleaving of
live decoding and prefetch passes permitted by the time budget *in which
each prefetch pass (pre-roll included) is interrupted only at a record
boundary* (its byte consumption `min (N+1) (min (4*frame) 128)` a
multiple of 4), the rectangles are drawn in exactly the order their
4-byte records appear in the stream, and all rectangles prefetched for a
frame are flushed before any live-decoded rectangle of that frame. -/
theorem c1_draw_order_aligned (c : Nat) (H : List Nat) (f : List RawRect)
    (rest : List (List RawRect)) (preN : Nat) (budget : Nat → Option Nat)
    (fuel : Nat) (hH : H.length = 9)
    (hg : ∀ fr ∈ f :: rest, ∀ r ∈ fr, GoodRect r)
    (hpre : min (preN + 1) (min (4 * f.length) 128) % 4 = 0)
    (hbud : alignedBudget budget 0 (f :: rest))
    (hfuel : rest.length < fuel) :
    ∃ o, playback c (H ++ bodyBytes (f :: rest)) preN budget fuel = some o ∧
      fillsOf o.events = ((f :: rest).flatten).map (POp c) ∧
      noFlushAfterLive o.events false = true := by
  obtain ⟨o, h1, h2, h3, _, _⟩ :=
    playback_spec c H f rest preN budget fuel hH hg hpre hbud hfuel
  exact ⟨o, h1, h2, h3⟩

/-- C1 witness: two frames of one record each, an unbounded inter-frame
prefetch budget, and an aligned pre-roll. -/
theorem c1_draw_order_aligned_witness :
    (hdr9.length = 9 ∧
     (∀ fr ∈ ([[⟨1, 2, 3, 4⟩], [⟨5, 6, 7, 8⟩]] : List (List RawRect)), ∀ r ∈ fr, GoodRect r) ∧
     min (3 + 1) (min (4 * ([⟨1, 2, 3, 4⟩] : List RawRect).length) 128) % 4 = 0 ∧
     alignedBudget (fun _ => some 300) 0 [[⟨1, 2, 3, 4⟩], [⟨5, 6, 7, 8⟩]] ∧
     ([[⟨5, 6, 7, 8⟩]] : List (List RawRect)).length < 2) ∧
    (∃ o, playback 1 (hdr9 ++ bodyBytes [[⟨1, 2, 3, 4⟩], [⟨5, 6, 7, 8⟩]]) 3
        (fun _ => some 300) 2 = some o ∧
      fillsOf o.events =
        (([[⟨1, 2, 3, 4⟩], [⟨5, 6, 7, 8⟩]] : List (List RawRect)).flatten).map (POp 1) ∧
      noFlushAfterLive o.events false = true) :=
  ⟨⟨by decide, by decide, by decide,
    ⟨fun N h => by injection h with h2; subst h2; decide, trivial, trivial⟩,
    by decide⟩,
   c1_draw_order_aligned 1 hdr9 [⟨1, 2, 3, 4⟩] [[⟨5, 6, 7, 8⟩]] 3 (fun _ => some 300) 2
     (by decide) (by decide) (by decide)
     ⟨fun N h => by injection h with h2; subst h2; decide, trivial, trivial⟩
     (by decide)⟩

/-! ## Claim C6: single-record stream termination -/

/-- C6 (counterexample): with the pre-roll interrupted after a single
parser iteration (a permitted time interleaving), the spec's example
stream — a valid header, `0xFF`, one record, `0xFE` — issues two
rectangle draws, not one: the partially filled queue slot is flushed as
a garbage rectangle before the live decoder redraws the record. -/
theorem c6_counterexample_two_draws :
    retrieve_data_from_video [56, 52, 86, 73, 68, 30, 1, 2, 255, 10, 10, 20, 20, 254] = true ∧
    (playback 2 [56, 52, 86, 73, 68, 30, 1, 2, 255, 10, 10, 20, 20, 254] 0
        (fun _ => none) 2).map (fun o => (fillsOf o.events).length) = some 2 := by
  decide

/-- C6 (amended): for a stream of a valid header, the mandatory `0xFF`,
one record and the final `0xFE`, playback executes exactly one frame
cycle, does not consume the `0xFE` marker (the final cursor rests on the
last byte), and terminates without a second cycle; and provided the
pre-roll budget allows at least four parser iterations (so the pre-roll
is not interrupted mid-record), it issues exactly one rectangle draw. -/
theorem c6_single_record_playback (H : List Nat) (r : RawRect) (preN : Nat)
    (budget : Nat → Option Nat) (fuel : Nat)
    (hH : H.length = 9)
    (hvalid : retrieve_data_from_video (H ++ bodyBytes [[r]]) = true)
    (hr : GoodRect r) (hpre : 3 ≤ preN) (hfuel : 1 ≤ fuel) :
    ∃ o, playback (byteAt (H ++ bodyBytes [[r]]) 7) (H ++ bodyBytes [[r]])
          preN budget fuel = some o ∧
      o.frames = 1 ∧
      (fillsOf o.events).length = 1 ∧
      o.idx = (((H ++ bodyBytes [[r]]).length - 1 : Nat) : Int) := by
  obtain ⟨o, h1, h2, _, h4, h5⟩ :=
    playback_spec (byteAt (H ++ bodyBytes [[r]]) 7) H [r] [] preN budget fuel hH
      (by intro fr hfr x hx; simp at hfr; subst hfr; simp at hx; subst hx; exact hr)
      (by simp; omega) ⟨trivial, trivial⟩ (by simpa using hfuel)
  refine ⟨o, h1, by simpa using h4, by rw [h2]; simp, ?_⟩
  rw [h5, List.length_append]

/-- C6 witness at the spec's own example stream with a 500 ms pre-roll
modelled as expiring at check 3. -/
theorem c6_single_record_playback_witness :
    (([56, 52, 86, 73, 68, 30, 1, 2, 255] : List Nat).length = 9 ∧
     retrieve_data_from_video
       ([56, 52, 86, 73, 68, 30, 1, 2, 255] ++ bodyBytes [[⟨10, 10, 20, 20⟩]]) = true ∧
     GoodRect ⟨10, 10, 20, 20⟩ ∧ 3 ≤ 3 ∧ 1 ≤ 1) ∧
    (∃ o, playback
        (byteAt ([56, 52, 86, 73, 68, 30, 1, 2, 255] ++ bodyBytes [[⟨10, 10, 20, 20⟩]]) 7)
        ([56, 52, 86, 73, 68, 30, 1, 2, 255] ++ bodyBytes [[⟨10, 10, 20, 20⟩]])
        3 (fun _ => none) 1 = some o ∧
      o.frames = 1 ∧
      (fillsOf o.events).length = 1 ∧
      o.idx = ((([56, 52, 86, 73, 68, 30, 1, 2, 255] ++
          bodyBytes [[⟨10, 10, 20, 20⟩]] : List Nat).length - 1 : Nat) : Int)) :=
  ⟨⟨by decide, by decide, by decide, by decide, by decide⟩,
   c6_single_record_playback [56, 52, 86, 73, 68, 30, 1, 2, 255] ⟨10, 10, 20, 20⟩ 3
     (fun _ => none) 1 (by decide) (by decide) (by decide) (by decide) (by decide)⟩

/-! ## Claim C10: the `-1` sentinel -/

/-- C10 (the code violates the sentinel invariant): a prefetch pass over
a well-formed record, interrupted by the time budget after a single
iteration, rolls the cursor back to the record's first byte (offset 9)
but leaves queue slot 0 with `x = 10 ≥ 0` while `y = x2 = y2 = -1` — a
slot that is *not* a complete decoded rectangle yet is counted as
occupied by the sentinel test, so the next flush draws this garbage
slot.  This contradicts the code's own comments (lines 111 and 202),
which state that `-1` means "no data" and that a slot with `x != -1`
holds a complete rectangle. -/
theorem c10_sentinel_invariant_violated :
    (process_next_frame 2 (hdr9 ++ [5, 6, 7, 8, 254]) 0 9
        init_render_queue).last_data_index = 9 ∧
    ((process_next_frame 2 (hdr9 ++ [5, 6, 7, 8, 254]) 0 9
        init_render_queue).queue.getD 0 emptyRect).x = 10 ∧
    ((process_next_frame 2 (hdr9 ++ [5, 6, 7, 8, 254]) 0 9
        init_render_queue).queue.getD 0 emptyRect).y = -1 ∧
    flushQueue 2 (process_next_frame 2 (hdr9 ++ [5, 6, 7, 8, 254]) 0 9
        init_render_queue).queue =
      [Ev.flushFill (flushDrawCalc 2 ⟨10, -1, -1, -1⟩)] := by
  decide

end Vid84
